import Mathlib

/-!
Verification of the pinball-territory-war simulation engine
(source: the TypeScript engine in `src/unnamed/part_001`).

The engine is embedded shallowly over exact rational arithmetic:

* JavaScript `number`s become `ℚ` (or `ℤ`/`ℕ` where the source only ever
  holds integers in them);
* `Math.random()` draws and the transcendental values the source computes
  (`Math.cos`, `Math.sin`, `Math.atan2`, `Math.asin`, `Math.sqrt` used as a
  *value*) are supplied by explicit oracle records, so every definition is a
  pure function of its inputs and the oracle;
* comparisons of the form `Math.sqrt d > m` (with `d` a sum of squares,
  hence `d ≥ 0`) are translated by the equivalent square-free tests
  `sqrtGtB`/`sqrtLtB`/`sqrtLeB` defined below;
* a unit's heading `angle` is represented by the pair of its trigonometric
  images (`cosAngle`, `sinAngle`), because the source only ever uses
  `Math.cos(angle)`/`Math.sin(angle)` and the reflections
  `angle ↦ π − angle` and `angle ↦ −angle`, which act on the pair as
  `(c, s) ↦ (−c, s)` and `(c, s) ↦ (c, −s)`;
* the 100×100 territory grid is a `List (List ℤ)` of owner ids
  (`-1` = neutral), read through `cellAt` and written through `set2d`
  with the same bounds discipline as the source.
-/

namespace Pinball

/-- `MAP_GRID_SIZE` from the source. -/
def MAP_GRID_SIZE : ℕ := 100

/-- `GRAVITY` from the source. -/
def GRAVITY : ℚ := 15/100

/-- `FRICTION` from the source. -/
def FRICTION : ℚ := 99/100

/-- `BOUNCE_DAMPING` from the source. -/
def BOUNCE_DAMPING : ℚ := 3/4

/-- `UnitType` from `types.ts`: `'light' | 'heavy'`. -/
inductive UnitType where
  | light
  | heavy
deriving DecidableEq, Repr

/-- `TerrainType` from `types.ts`. -/
inductive TerrainType where
  | normal
  | highground
  | obstacle
  | supply
deriving DecidableEq, Repr

/-- `TerrainCell` from `types.ts`. -/
structure TerrainCell where
  type : TerrainType
  owner : ℤ
  bonus : ℚ
deriving DecidableEq, Repr

/-- `Point` from `types.ts`. -/
structure Point where
  x : ℚ
  y : ℚ
deriving DecidableEq, Repr, Inhabited

/-- `UnitStats` from `types.ts`. -/
structure UnitStats where
  baseHp : ℚ
  speed : ℚ
  captureRadius : ℚ
  attackPower : ℚ
  defenseBonus : ℚ
  bonusAgainst : List UnitType
deriving DecidableEq, Repr

/-- `PlayerConfig` from `types.ts`. -/
structure PlayerConfig where
  id : ℕ
  color : String
  basePosition : Point
  isAlive : Bool
  coreHp : ℚ
  armyPower : ℚ
  baseRadius : ℚ
deriving DecidableEq, Repr, Inhabited

/-- The game-phase enum `'early' | 'mid' | 'late'`. -/
inductive GamePhase where
  | early
  | mid
  | late
deriving DecidableEq, Repr

/-- A peg record: `{x, y, type, layer}` as built by `generateMultiLayerPegs`
(the `type` field is one of the strings `"normal"`, `"gold"`, `"red"`). -/
structure Peg where
  x : ℚ
  y : ℚ
  type : String
  layer : ℕ
deriving DecidableEq, Repr

/-- `Math.sqrt d > m`, expressed without square roots.  Sound whenever
`0 ≤ d` (every use in the source has `d` a sum of squares): for `m < 0`
the comparison always holds, otherwise it is equivalent to `d > m²`. -/
def sqrtGtB (d m : ℚ) : Bool :=
  if m < 0 then true else decide (d > m ^ 2)

/-- `Math.sqrt d < m`, expressed without square roots (sound for `0 ≤ d`). -/
def sqrtLtB (d m : ℚ) : Bool :=
  if m ≤ 0 then false else decide (d < m ^ 2)

/-- `Math.sqrt d ≤ m`, expressed without square roots (sound for `0 ≤ d`). -/
def sqrtLeB (d m : ℚ) : Bool :=
  if m < 0 then false else decide (d ≤ m ^ 2)

/-- Truncating division remainder `a % b` of JavaScript for rationals
(the remainder takes the sign of the dividend, as in JS). -/
def jsMod (a b : ℚ) : ℚ :=
  if 0 ≤ a then a - b * ((a / b).floor : ℚ)
  else -((-a) - b * (((-a) / b).floor : ℚ))

/-- The territory grid: 100 rows of 100 owner ids (`-1` = neutral). -/
abbrev Grid := List (List ℤ)

/-- Read `grid[y][x]`; out-of-shape reads default to neutral (the source
always bounds-checks indices before reading, so the default is never
observed on well-shaped grids). -/
def cellAt (grid : Grid) (y x : ℤ) : ℤ :=
  ((List.getD grid y.toNat []).getD x.toNat (-1))

/-- Write `grid[y][x] = v` (no-op outside the list shape; the source
bounds-checks all writes, so in-bounds writes are always in shape). -/
def set2d (grid : Grid) (y x : ℤ) (v : ℤ) : Grid :=
  List.set grid y.toNat ((List.getD grid y.toNat []).set x.toNat v)

/-- `getUnitMix(isJackpot)` from the source: the light/heavy weight table. -/
def getUnitMix (isJackpot : Bool) : List (String × ℚ) :=
  if isJackpot then [("light", 3/10), ("heavy", 7/10)]
  else [("light", 1/2), ("heavy", 1/2)]

/-- The cumulative-threshold loop of `selectUnitType`. -/
def selectUnitTypeGo (rand : ℚ) : List (String × ℚ) → ℚ → String
  | [], _ => "assault"
  | (t, probability) :: rest, cumulative =>
    let cumulative := cumulative + probability
    if rand < cumulative then t else selectUnitTypeGo rand rest cumulative

/-- `selectUnitType(mix)` from the source, with the `Math.random()` draw
made an explicit argument.  `Object.entries(mix)` enumerates the weight
table in insertion order, which is the list order here. -/
def selectUnitType (mix : List (String × ℚ)) (rand : ℚ) : String :=
  selectUnitTypeGo rand mix 0

/-- The mutable fields of class `Ball`. -/
structure BallState where
  x : ℚ
  y : ℚ
  vx : ℚ
  vy : ℚ
  radius : ℚ
  color : String
  stuckFrames : ℤ
  rewardCooldown : ℤ
  pegHitCount : ℤ
  comboPoints : ℤ
  maxComboPoints : ℤ
  ballTick : ℤ
deriving DecidableEq, Repr

/-- Oracle for one `Ball.update` call: the `Math.random()` draws and the
transcendental values the source computes on this tick.
`incidentLeft`/`incidentRight` stand for
`Math.abs(Math.atan2(...)) * (180 / Math.PI)` at the two wall branches,
`pegIncident` for `Math.abs(Math.asin(dot / speed)) * (180 / Math.PI)`,
`rotCos`/`rotSin` for `Math.cos`/`Math.sin` of the random perturbation
angle, `pegDistSqrt` for `Math.sqrt(closestDistSq)`, and `speedSqrt` for
`Math.sqrt(speedSq)` in the scoring factor. -/
structure BallOracle where
  stuckRand1 : ℚ
  stuckRand2 : ℚ
  incidentLeft : ℚ
  incidentRight : ℚ
  pegIncident : ℚ
  rotCos : ℚ
  rotSin : ℚ
  pegDistSqrt : ℚ
  speedSqrt : ℚ
  scoreRand : ℚ
deriving Repr

/-- `new Ball(x, y, color)`: the constructor with its two random draws
made explicit (`vx = (r1 − 0.5) * 1.5`, `vy = r2 * 0.3`). -/
def BallState.make (x y : ℚ) (color : String) (r1 r2 : ℚ) : BallState :=
  { x := x, y := y, color := color
    vx := (r1 - 1/2) * (3/2)
    vy := r2 * (3/10)
    radius := 6
    stuckFrames := 0, rewardCooldown := 0, pegHitCount := 0
    comboPoints := 0, maxComboPoints := 0, ballTick := 0 }

/-- The opening of `Ball.update`: tick bookkeeping, gravity/friction
integration and the position advance. -/
def ballIntegrate (b : BallState) : BallState :=
  let b := { b with ballTick := b.ballTick + 1 }
  let b := if b.rewardCooldown > 0 then
      { b with rewardCooldown := b.rewardCooldown - 1 } else b
  let b := { b with vy := b.vy + GRAVITY }
  let b := { b with vx := b.vx * FRICTION, vy := b.vy * FRICTION }
  { b with x := b.x + b.vx, y := b.y + b.vy }

/-- The anti-stuck block of `Ball.update` (`speedSq` is the squared speed
captured right after integration). -/
def ballAntiStuck (o : BallOracle) (speedSq : ℚ) (b : BallState) : BallState :=
  if speedSq < 2/10 then
    let b := { b with stuckFrames := b.stuckFrames + 1 }
    if b.stuckFrames > 20 then
      { b with vy := -4 - o.stuckRand1 * 4
               vx := (o.stuckRand2 - 1/2) * 10
               stuckFrames := 0 }
    else b
  else { b with stuckFrames := 0 }

/-- The trapped-between-pegs escape block (`dist < 10` is tested squared
via `sqrtLtB`; note that the source reuses the *stale* `speedSq` captured
before the anti-stuck block). -/
def ballEscapeTrap (pegs : List Peg) (speedSq : ℚ) (b : BallState) : BallState :=
  let nearbyPegs :=
    (pegs.filter (fun peg =>
      sqrtLtB ((b.x - peg.x) * (b.x - peg.x) + (b.y - peg.y) * (b.y - peg.y))
        10)).length
  if nearbyPegs ≥ 3 ∧ speedSq < 1 then
    { b with vy := -5, vx := if b.x > 50 then -3 else 3 }
  else b

/-- The wall-collision block of `Ball.update` with angle-based damping. -/
def ballWalls (o : BallOracle) (width : ℚ) (b : BallState) : BallState :=
  if b.x < b.radius then
    let angleFactor := 1/2 + (o.incidentLeft / 90) * (3/10)
    { b with x := b.radius, vx := b.vx * (-angleFactor) }
  else if b.x > width - b.radius then
    let angleFactor := 1/2 + (o.incidentRight / 90) * (3/10)
    { b with x := width - b.radius, vx := b.vx * (-angleFactor) }
  else b

/-- The closest-peg search of `Ball.update` (the source starts
`closestDistSq` at `Infinity`; `none` plays that role here).  Returns the
closest peg with its squared distance and the offset components. -/
def closestPegOf (pegs : List Peg) (bx bY : ℚ) :
    Option (Peg × ℚ × ℚ × ℚ) :=
  pegs.foldl
    (fun acc peg =>
      let dx := bx - peg.x
      let dy := bY - peg.y
      let distSq := dx * dx + dy * dy
      match acc with
      | none => some (peg, distSq, dx, dy)
      | some (_, best, _, _) =>
        if distSq < best then some (peg, distSq, dx, dy) else acc)
    none

/-- The velocity-reflection body (`if (dot < 0) { ... }`) of the peg
collision: reflect about the contact normal with angle-based damping,
keep a frictioned tangential component, rotate by the random
perturbation, and update the hit/combo counters by peg type. -/
def pegBounce (o : BallOracle) (closestPeg : Peg) (nx ny dot : ℚ)
    (b : BallState) : BallState :=
  let angleFactor := 1 - (o.pegIncident / 180) * (3/10)
  let effectiveDamping := BOUNCE_DAMPING * angleFactor
  let tx := -ny
  let ty := nx
  let tangentialVel := b.vx * tx + b.vy * ty
  let reflectedNormalVel := -dot * effectiveDamping
  let newTangentialVel := tangentialVel * (95/100)
  let b := { b with vx := reflectedNormalVel * nx + newTangentialVel * tx
                    vy := reflectedNormalVel * ny + newTangentialVel * ty }
  let b := { b with vx := b.vx * o.rotCos - b.vy * o.rotSin
                    vy := b.vx * o.rotSin + b.vy * o.rotCos }
  let b := { b with pegHitCount := b.pegHitCount + 1 }
  let b :=
    if closestPeg.type = "normal" then
      { b with comboPoints := b.comboPoints + 1 }
    else if closestPeg.type = "gold" then
      { b with comboPoints := b.comboPoints + 3 }
    else if closestPeg.type = "red" then
      { b with comboPoints := b.comboPoints - 2 }
    else b
  { b with maxComboPoints := max b.maxComboPoints b.comboPoints }

/-- The peg-collision block of `Ball.update`: process the closest peg when
it overlaps the ball, then push the ball out of the overlap along the
normal. -/
def ballPegCollision (o : BallOracle) (pegs : List Peg) (b : BallState) :
    BallState :=
  let pegRadius : ℚ := 4
  let minDist := b.radius + pegRadius
  let minDistSq := minDist * minDist
  match closestPegOf pegs b.x b.y with
  | some (closestPeg, closestDistSq, closestDx, closestDy) =>
    if closestDistSq < minDistSq then
      let dist := o.pegDistSqrt
      let nx := closestDx / dist
      let ny := closestDy / dist
      let dot := b.vx * nx + b.vy * ny
      let b := if dot < 0 then pegBounce o closestPeg nx ny dot b else b
      let overlap := minDist - dist
      { b with x := b.x + nx * overlap, y := b.y + ny * overlap }
    else b
  | none => b

/-- The physics part of `Ball.update` (everything before the scoring
block), in source order.  Also returns `speedSq`, the squared speed
captured right after integration, which the scoring block reads. -/
def ballPhysicsStep (o : BallOracle) (width : ℚ) (pegs : List Peg)
    (b : BallState) : BallState × ℚ :=
  let b := ballIntegrate b
  let speedSq := b.vx * b.vx + b.vy * b.vy
  let b := ballAntiStuck o speedSq b
  let b := ballEscapeTrap pegs speedSq b
  let b := ballWalls o width b
  let b := ballPegCollision o pegs b
  (b, speedSq)

/-- The weighted-random base score of the scoring block, as a function of
`randomSeed`. -/
def baseScoreOf (randomSeed : ℚ) : ℤ :=
  if randomSeed < 15 then 0
  else if randomSeed < 40 then 1
  else if randomSeed < 70 then 2
  else if randomSeed < 90 then 4
  else 8

/-- `randomSeed = (x * 100 + y + ballTick + rand * 100) % 100` of the
scoring block. -/
def randomSeedOf (o : BallOracle) (b : BallState) : ℚ :=
  jsMod (b.x * 100 + b.y + (b.ballTick : ℚ) + o.scoreRand * 100) 100

/-- The scoring block at the bottom of `Ball.update`: fires only when the
ball has crossed below the floor boundary; otherwise the update returns 0.
The source computes `speedFactor` from `Math.sqrt(speedSq)` on the stale
`speedSq` captured after integration; `o.speedSqrt` stands for that square
root, so the `_speedSq` argument itself is not read again here. -/
def ballScoringStep (o : BallOracle) (height : ℚ) (b : BallState)
    (_speedSq : ℚ) : ℤ :=
  if b.y > height + b.radius then
    let speedFactor := min 1 (o.speedSqrt / 10)
    let xPositionFactor := |b.x - 50| / 50
    let comboFactor := min 2 (1 + (b.comboPoints : ℚ) / 20)
    let randomSeed := randomSeedOf o b
    let baseScore := baseScoreOf randomSeed
    let finalScore :=
      ((baseScore : ℚ) * speedFactor * comboFactor
        * (1 - xPositionFactor * (1/2))).floor
    max 0 finalScore
  else 0

/-- `Ball.update(width, height, pegs)`: the physics step followed by the
scoring block; returns the updated ball together with the reward value. -/
def ballUpdate (o : BallOracle) (width height : ℚ) (pegs : List Peg)
    (b : BallState) : BallState × ℤ :=
  let (b, speedSq) := ballPhysicsStep o width pegs b
  (b, ballScoringStep o height b speedSq)

/-- `UNIT_STATS` from the source. -/
def unitStats : UnitType → UnitStats
  | .light =>
    { baseHp := 45, speed := 1/2, captureRadius := 12/10
      attackPower := 1, defenseBonus := 9/10, bonusAgainst := [] }
  | .heavy =>
    { baseHp := 90, speed := 45/100, captureRadius := 5/2
      attackPower := 2, defenseBonus := 22/10, bonusAgainst := [] }

/-- The fields of class `Unit`.  The heading `angle` is represented by its
trigonometric images `cosAngle`/`sinAngle` (see the file header). -/
structure Unit where
  x : ℚ
  y : ℚ
  playerId : ℕ
  color : String
  speed : ℚ
  active : Bool
  cosAngle : ℚ
  sinAngle : ℚ
  captureRadius : ℚ
  hp : ℚ
  maxHp : ℚ
  unitType : UnitType
  attackPower : ℚ
  defenseBonus : ℚ
  bonusAgainst : List UnitType
  battleEffect : ℚ
  trail : List Point
  bounceCooldown : ℤ
  maxDistance : ℚ
  spawnPosition : Point
  leftTerritoryPosition : Option Point
deriving DecidableEq, Repr

/-- The `Unit` constructor.  `cosAngle`/`sinAngle` are the trigonometric
images of the `angle` argument. -/
def Unit.make (x y : ℚ) (playerId : ℕ) (color : String)
    (cosAngle sinAngle : ℚ) (unitType : UnitType) (hpMultiplier : ℚ)
    (gamePhase : GamePhase) : Unit :=
  let stats := unitStats unitType
  let maxDistance : ℚ := if unitType = .light then 7/2 else 5
  let phaseMultiplier : ℚ :=
    match gamePhase with
    | .early => 1
    | .mid => 12/10
    | .late => 14/10
  let baseHp := stats.baseHp * hpMultiplier * phaseMultiplier
  { x := x, y := y, playerId := playerId, color := color
    cosAngle := cosAngle, sinAngle := sinAngle
    unitType := unitType
    spawnPosition := ⟨x, y⟩
    leftTerritoryPosition := none
    maxDistance := maxDistance
    speed := stats.speed
    captureRadius := stats.captureRadius
    attackPower := stats.attackPower * phaseMultiplier
    defenseBonus := stats.defenseBonus
    bonusAgainst := stats.bonusAgainst
    hp := baseHp, maxHp := baseHp
    active := true, battleEffect := 0, trail := [], bounceCooldown := 0 }

/-- The integer offsets `-r, -r+1, …, r` of a source loop
`for (let k = -r; k <= r; k++)` (empty when `r < 0`). -/
def offsetsUpTo (r : ℤ) : List ℤ :=
  if r < 0 then []
  else (List.range (2 * r.toNat + 1)).map (fun (k : ℕ) => -r + (k : ℤ))

/-- `Unit.paintArea(grid, gridSize, cx, cy, pid, radius)`: paint the disc
of `radius` around `(cx, cy)` with owner `pid`, counting the cells whose
owner actually changed.  Returns the updated grid and the count (the
source mutates `grid` in place and returns the count). -/
def paintArea (grid : Grid) (gridSize : ℕ) (cx cy : ℤ) (pid : ℕ)
    (radius : ℚ) : Grid × ℕ :=
  let rSq := radius * radius
  let rCeil := radius.ceil
  (offsetsUpTo rCeil).foldl
    (fun acc y =>
      (offsetsUpTo rCeil).foldl
        (fun acc x =>
          if ((x * x + y * y : ℤ) : ℚ) ≤ rSq then
            let px := cx + x
            let py := cy + y
            if 0 ≤ px ∧ px < (gridSize : ℤ) ∧ 0 ≤ py ∧ py < (gridSize : ℤ) then
              if cellAt acc.1 py px ≠ (pid : ℤ) then
                (set2d acc.1 py px (pid : ℤ), acc.2 + 1)
              else acc
            else acc
          else acc)
        acc)
    (grid, 0)

/-- `players[owner]?.isAlive` of the source: optional indexing into the
player list (undefined — hence falsy — outside the list). -/
def playerAliveAt (players : List PlayerConfig) (owner : ℤ) : Bool :=
  if owner < 0 then false
  else
    match players.get? owner.toNat with
    | some p => p.isAlive
    | none => false

/-- The trail block of `Unit.update`: light units push their position and
keep at most 8 trail entries. -/
def unitTrailStep (u : Unit) : Unit :=
  if u.unitType = .light then
    let trail := u.trail ++ [⟨u.x, u.y⟩]
    let trail := if trail.length > 8 then trail.drop 1 else trail
    { u with trail := trail }
  else u

/-- The own-territory / excursion block of `Unit.update` (after movement,
given the owner of the cell under the unit).  Returns the updated unit and
`true` when the excursion budget was exceeded (the source then deactivates
the unit and returns early).  The source compares
`Math.sqrt(dx² + dy²)` against the thresholds; both comparisons are
expressed squared via `sqrtLtB`/`sqrtGtB`. -/
def unitAnchorStep (u : Unit) (currentOwner : ℤ) : Unit × Bool :=
  if currentOwner = (u.playerId : ℤ) then
    let distFromSpawnSq :=
      (u.x - u.spawnPosition.x) ^ 2 + (u.y - u.spawnPosition.y) ^ 2
    if sqrtLtB distFromSpawnSq 2 then
      ({ u with leftTerritoryPosition := none }, false)
    else (u, false)
  else
    match u.leftTerritoryPosition with
    | none => ({ u with leftTerritoryPosition := some ⟨u.x, u.y⟩ }, false)
    | some anchor =>
      let distanceSq := (u.x - anchor.x) ^ 2 + (u.y - anchor.y) ^ 2
      if sqrtGtB distanceSq u.maxDistance then (u, true) else (u, false)

/-- The boundary-bounce block of `Unit.update` (heavy units only).  The
heading reflections `angle ↦ π − angle` and `angle ↦ −angle` act on the
`(cosAngle, sinAngle)` pair as negation of the respective component. -/
def unitBounceStep (gridSize : ℕ) (u : Unit) : Unit :=
  if u.unitType = .heavy ∧ u.bounceCooldown ≤ 0 then
    let margin : ℚ := 1/2
    let (u, bounced) :=
      if u.x ≤ margin then
        ({ u with x := margin, cosAngle := -u.cosAngle }, true)
      else if u.x ≥ (gridSize : ℚ) - margin then
        ({ u with x := (gridSize : ℚ) - margin, cosAngle := -u.cosAngle }, true)
      else (u, false)
    let (u, bounced) :=
      if u.y ≤ margin then
        ({ u with y := margin, sinAngle := -u.sinAngle }, true)
      else if u.y ≥ (gridSize : ℚ) - margin then
        ({ u with y := (gridSize : ℚ) - margin, sinAngle := -u.sinAngle }, true)
      else (u, bounced)
    if bounced then
      { u with bounceCooldown := 15, hp := min u.maxHp (u.hp + 30) }
    else u
  else u

/-- The terrain-effects block of `Unit.update`: returns the speed and
defense modifiers and applies supply healing. -/
def unitTerrainStep (terrain : TerrainCell) (u : Unit) : Unit × ℚ × ℚ :=
  if terrain.type = .highground then (u, 95/100, 11/10)
  else if terrain.type = .obstacle then (u, 8/10, 1)
  else if terrain.type = .supply then
    (if u.hp < u.maxHp then { u with hp := min u.maxHp (u.hp + 3/2) } else u,
      1, 1)
  else (u, 1, 1)

/-- The rock-paper-scissors loop of `Unit.update` over nearby enemies
(first match breaks): returns the type bonus and the unit with its battle
effect possibly set. -/
def unitTypeBonus (u : Unit) : List Unit → ℚ × Unit
  | [] => (1, u)
  | enemy :: rest =>
    if u.bonusAgainst.contains enemy.unitType then
      (3/2, { u with battleEffect := 10 })
    else if enemy.bonusAgainst.contains u.unitType then (7/10, u)
    else unitTypeBonus u rest

/-- The capture-cost block of `Unit.update`: paint the capture disc and,
when any cell changed hands, charge the hp cost (neutral / base-area /
highground multipliers over the resistance, divided by the attack terms,
with the heavy-unit discount). -/
def unitCaptureStep (grid : Grid) (gridSize : ℕ)
    (players : List PlayerConfig) (terrain : TerrainCell)
    (currentOwner : ℤ) (gx gy : ℤ) (resistanceMult typeBonus
    defenseModifier : ℚ) (u : Unit) : Unit × Grid :=
  let painted := paintArea grid gridSize gx gy u.playerId u.captureRadius
  let grid := painted.1
  let pixelsPainted := painted.2
  if pixelsPainted > 0 then
    let baseCost := (pixelsPainted : ℚ) * resistanceMult
    let isBaseArea :=
      players.any (fun player =>
        if currentOwner = (player.id : ℤ) ∧ player.isAlive then
          let baseCenterX := (player.basePosition.x * (MAP_GRID_SIZE : ℚ)).floor
          let baseCenterY := (player.basePosition.y * (MAP_GRID_SIZE : ℚ)).floor
          let distToBaseSq :=
            ((gx - baseCenterX : ℤ) : ℚ) ^ 2 + ((gy - baseCenterY : ℤ) : ℚ) ^ 2
          sqrtLeB distToBaseSq player.baseRadius
        else false)
    let neutralCost := if currentOwner = -1 then baseCost * (3/2) else baseCost
    let baseAreaCost := if isBaseArea then neutralCost * 3 else neutralCost
    let terrainCost :=
      if terrain.type = .highground then baseAreaCost * (13/10) else baseAreaCost
    let finalCost := terrainCost / (u.attackPower * typeBonus * defenseModifier)
    let finalCost := if u.unitType = .heavy then finalCost * (4/5) else finalCost
    ({ u with hp := u.hp - finalCost }, grid)
  else (u, grid)

/-- The tail of `Unit.update` after the excursion block: terrain lookup,
bounce, cooldown, terrain modifiers, the own-territory early return, and
the combat/capture logic. -/
def unitCombatPhase (grid : Grid) (terrainGrid : List (List TerrainCell))
    (gridSize : ℕ) (players : List PlayerConfig) (allUnits : List Unit)
    (gx gy currentOwner : ℤ) (u : Unit) : Unit × Grid × Bool :=
  let terrain :=
    (terrainGrid.getD gy.toNat []).getD gx.toNat
      ⟨.normal, -1, 1⟩
  let u := unitBounceStep gridSize u
  let u := if u.bounceCooldown > 0 then
      { u with bounceCooldown := u.bounceCooldown - 1 } else u
  let stepped := unitTerrainStep terrain u
  let u := stepped.1
  let speedModifier := stepped.2.1
  let defenseModifier := stepped.2.2
  let effectiveSpeed := u.speed * speedModifier
  let u := { u with x := u.x + u.cosAngle * (effectiveSpeed - u.speed)
                    y := u.y + u.sinAngle * (effectiveSpeed - u.speed) }
  if currentOwner = (u.playerId : ℤ) then
    ({ u with x := u.x + u.cosAngle * (1/100)
              y := u.y + u.sinAngle * (1/100) }, grid, false)
  else
    let enemyHeld := currentOwner ≠ -1 ∧ playerAliveAt players currentOwner
    let resistanceMult : ℚ := if enemyHeld then 7/2 else 1
    let isEnemyTerritory : Bool := enemyHeld
    let nearbyEnemies :=
      allUnits.filter (fun e =>
        e.active ∧ e.playerId ≠ u.playerId ∧
          (e.playerId : ℤ) = currentOwner ∧
          |e.x - u.x| < 3 ∧ |e.y - u.y| < 3)
    let bonused := unitTypeBonus u nearbyEnemies
    let typeBonus := bonused.1
    let u := bonused.2
    let captured := unitCaptureStep grid gridSize players terrain currentOwner
      gx gy resistanceMult typeBonus defenseModifier u
    let u := captured.1
    let grid := captured.2
    let u := if u.hp ≤ 0 then { u with active := false } else u
    (u, grid, isEnemyTerritory)

/-- `Unit.update(grid, terrainGrid, gridSize, players, allUnits)`: the full
per-tick unit step.  Returns the updated unit, the updated grid (the
source mutates `grid` through `paintArea`) and the boolean the source
returns (whether the unit stands on living enemy territory). -/
def unitUpdate (grid : Grid) (terrainGrid : List (List TerrainCell))
    (gridSize : ℕ) (players : List PlayerConfig) (allUnits : List Unit)
    (u : Unit) : Unit × Grid × Bool :=
  if u.active = false then (u, grid, false)
  else
    let u := unitTrailStep u
    let u := { u with x := u.x + u.cosAngle * u.speed
                      y := u.y + u.sinAngle * u.speed }
    let gx := u.x.floor
    let gy := u.y.floor
    if gx < 0 ∨ gx ≥ (gridSize : ℤ) ∨ gy < 0 ∨ gy ≥ (gridSize : ℤ) then
      ({ u with active := false }, grid, false)
    else
      let currentOwner := cellAt grid gy gx
      let anchored := unitAnchorStep u currentOwner
      let u := anchored.1
      if anchored.2 then ({ u with active := false }, grid, false)
      else unitCombatPhase grid terrainGrid gridSize players allUnits
        gx gy currentOwner u

/-- The fields of class `GameEngine`.  `balls` models the
`Map<number, Ball>` as an association list in insertion order; `winner`
models `number | null` as `Option ℤ`. -/
structure EngineState where
  players : List PlayerConfig
  balls : List (ℕ × BallState)
  units : List Unit
  grid : Grid
  terrainGrid : List (List TerrainCell)
  pegs : List Peg
  tick : ℕ
  catcherPhases : List ℚ
  catcherPositions : List ℚ
  playerPegRefreshTimers : List ℕ
  scores : List ℤ
  territoryCounts : List ℕ
  winner : Option ℤ
  catchStreaks : List ℕ
  missStreaks : List ℕ
  catchMultipliers : List ℚ
  catcherWidths : List ℚ
  pegHitCounts : List ℕ
  gamePhase : GamePhase
  spawnAngles : List ℚ
deriving DecidableEq

/-- `initGrid()`: the all-neutral territory grid. -/
def initGridTerritory : Grid :=
  List.replicate MAP_GRID_SIZE (List.replicate MAP_GRID_SIZE (-1))

/-- `initGrid()`: the all-normal terrain grid. -/
def initGridTerrain : List (List TerrainCell) :=
  List.replicate MAP_GRID_SIZE
    (List.replicate MAP_GRID_SIZE ⟨TerrainType.normal, -1, 1⟩)

/-- The engine right after `new GameEngine()`: the field initializers plus
the constructor's `initGrid()`. -/
def initialEngine : EngineState :=
  { players := [], balls := [], units := []
    grid := initGridTerritory, terrainGrid := initGridTerrain
    pegs := [], tick := 0, catcherPhases := [], catcherPositions := []
    playerPegRefreshTimers := [], scores := [], territoryCounts := []
    winner := none, catchStreaks := [], missStreaks := []
    catchMultipliers := [], catcherWidths := [], pegHitCounts := []
    gamePhase := .early, spawnAngles := [] }

/-- `initializeTerritory(playerId, basePos)`: paint the radius-18 disc
around the player's base center into the grid. -/
def initializeTerritory (grid : Grid) (playerId : ℕ) (basePos : Point) :
    Grid :=
  let centerGridX := (basePos.x * (MAP_GRID_SIZE : ℚ)).floor
  let centerGridY := (basePos.y * (MAP_GRID_SIZE : ℚ)).floor
  let radius : ℤ := 18
  (offsetsUpTo radius).foldl
    (fun grid y =>
      (offsetsUpTo radius).foldl
        (fun grid x =>
          if x * x + y * y ≤ radius * radius then
            let gy := centerGridY + y
            let gx := centerGridX + x
            if 0 ≤ gy ∧ gy < (MAP_GRID_SIZE : ℤ) ∧ 0 ≤ gx ∧
                gx < (MAP_GRID_SIZE : ℤ) then
              set2d grid gy gx (playerId : ℤ)
            else grid
          else grid)
        grid)
    grid

/-- `Map.set` on the association-list model of `this.balls`: replace the
entry in place when the key exists, append otherwise. -/
def ballsSet (balls : List (ℕ × BallState)) (k : ℕ) (b : BallState) :
    List (ℕ × BallState) :=
  if balls.any (fun e => e.1 = k) then
    balls.map (fun e => if e.1 = k then (k, b) else e)
  else balls ++ [(k, b)]

/-- `getRandomPegType()` with its `Math.random()` draw explicit. -/
def getRandomPegType (rand : ℚ) : String :=
  if rand < 1/10 then "gold"
  else if rand < 18/100 then "red"
  else "normal"

/-- Oracle for `setup(playerCount)`: all `Math.random()` draws and
transcendental values consumed during setup, indexed by player, by peg
index `r * 4 + c`, or by terrain-feature index.
`baseCos i`/`baseSin i` stand for `Math.cos`/`Math.sin` of
`2π·i/playerCount`; `catcherPhase i` for `Math.random() * 2π`;
`pegOffset i` for the Box–Muller `gaussianRandom(0, 0.8)` draw;
`spawnAngleCenter i` for `Math.atan2(50 - by, 50 - bx)`. -/
structure SetupOracle where
  baseCos : ℕ → ℚ
  baseSin : ℕ → ℚ
  catcherPhase : ℕ → ℚ
  pegOffset : ℕ → ℚ
  pegTypeRand : ℕ → ℚ
  ballStartRand : ℕ → ℚ
  ballVxRand : ℕ → ℚ
  ballVyRand : ℕ → ℚ
  spawnAngleCenter : ℕ → ℚ
  spawnAngleJitter : ℕ → ℚ
  highCx : ℕ → ℚ
  highCy : ℕ → ℚ
  highR : ℕ → ℚ
  obsCx : ℕ → ℚ
  obsCy : ℕ → ℚ
  obsR : ℕ → ℚ
  supCx : ℕ → ℚ
  supCy : ℕ → ℚ

/-- `generateMultiLayerPegs()`: the 5-row staggered peg layout (constants
`ROW_COUNT = 5`, `COL_COUNT = 4`, `ROW_SPACING = COL_SPACING = 24`,
`START_Y = 120` from the source). -/
def generateMultiLayerPegs (o : SetupOracle) : List Peg :=
  (List.range 5).foldl
    (fun pegs r =>
      let stagger : ℚ := ((r % 2 : ℕ) : ℚ) * (24 / 2)
      let rowWidth : ℚ := (4 - 1) * 24
      let startX : ℚ := (100 - rowWidth) / 2
      (List.range 4).foldl
        (fun pegs c =>
          let idx := r * 4 + c
          let x := startX + (c : ℚ) * 24 + stagger
          let y := (120 : ℚ) - (r : ℚ) * 24
          let randomOffset := o.pegOffset idx
          let x := x + randomOffset
          let y := y + randomOffset * (3/10)
          let x := max 5 (min 95 x)
          let y := max 5 (min 140 y)
          pegs ++ [⟨x, y, getRandomPegType (o.pegTypeRand idx), 1⟩])
        pegs)
    []

/-- The fractional offsets `-r, -r+1, …` of a source loop
`for (let k = -r; k <= r; k++)` started at a (possibly fractional)
non-negative bound `r`. -/
def qOffsets (r : ℚ) : List ℚ :=
  if r < 0 then []
  else (List.range ((2 * r).floor.toNat + 1)).map (fun (k : ℕ) => -r + (k : ℚ))

/-- Write `terrainGrid[y][x] = cell` (same discipline as `set2d`). -/
def setTerrain2d (tg : List (List TerrainCell)) (y x : ℤ)
    (cell : TerrainCell) : List (List TerrainCell) :=
  List.set tg y.toNat ((List.getD tg y.toNat []).set x.toNat cell)

/-- One terrain-feature disc of `generateTerrain()` (the three feature
loops of the source share this body, with their own center, radius and
cell payload). -/
def paintTerrainDisc (tg : List (List TerrainCell)) (cx cy radius : ℚ)
    (cell : TerrainCell) : List (List TerrainCell) :=
  (qOffsets radius).foldl
    (fun tg y =>
      (qOffsets radius).foldl
        (fun tg x =>
          if x * x + y * y ≤ radius * radius then
            let gy := (cy + y).floor
            let gx := (cx + x).floor
            if 0 ≤ gy ∧ gy < (MAP_GRID_SIZE : ℤ) ∧ 0 ≤ gx ∧
                gx < (MAP_GRID_SIZE : ℤ) then
              setTerrain2d tg gy gx cell
            else tg
          else tg)
        tg)
    tg

/-- `generateTerrain()`: 8 highground discs, 12 obstacle discs and
6 supply discs painted in that order (later features overwrite earlier
cells). -/
def generateTerrain (o : SetupOracle) (tg : List (List TerrainCell)) :
    List (List TerrainCell) :=
  let tg := (List.range 8).foldl
    (fun tg i =>
      paintTerrainDisc tg (20 + o.highCx i * 60) (20 + o.highCy i * 60)
        (6 + o.highR i * 4) ⟨.highground, -1, 13/10⟩)
    tg
  let tg := (List.range 12).foldl
    (fun tg i =>
      paintTerrainDisc tg (15 + o.obsCx i * 70) (15 + o.obsCy i * 70)
        (3 + o.obsR i * 3) ⟨.obstacle, -1, 1⟩)
    tg
  (List.range 6).foldl
    (fun tg i =>
      paintTerrainDisc tg (25 + o.supCx i * 50) (25 + o.supCy i * 50)
        4 ⟨.supply, -1, 1⟩)
    tg

/-- The player color string `hsl(<floor(360·i/n)>, 70%, 50%)`. -/
def playerColor (i n : ℕ) : String :=
  "hsl(" ++ toString (360 * i / n) ++ ", 70%, 50%)"

/-- `setup(playerCount)`.  The source method overwrites every mutable
engine field before reading any of them, so the result depends only on
`playerCount` and the oracle — the `_s` parameter (the engine state the
method is invoked on) is deliberately unread, mirroring that. -/
def setup (_s : EngineState) (playerCount : ℕ) (o : SetupOracle) :
    EngineState :=
  let pegs := generateMultiLayerPegs o
  let basePos : ℕ → Point := fun i =>
    ⟨1/2 + (2/5) * o.baseCos i, 1/2 + (2/5) * o.baseSin i⟩
  -- the per-player loop: push player, initializeTerritory, spawnBall
  let looped :=
    (List.range playerCount).foldl
      (fun acc i =>
        let (players, grid, balls) := acc
        let p : PlayerConfig :=
          { id := i, color := playerColor i playerCount
            basePosition := basePos i, isAlive := true, coreHp := 500
            armyPower := 0, baseRadius := 8 }
        let players := players ++ [p]
        let grid := initializeTerritory grid i (basePos i)
        -- spawnBall(i): the player just pushed is alive
        let startX := 30 + o.ballStartRand i * 40
        let ball := BallState.make startX (-10) p.color
          (o.ballVxRand i) (o.ballVyRand i)
        (players, grid, ballsSet balls i ball))
      ([], initGridTerritory, [])
  let players := looped.1
  let grid := looped.2.1
  let balls := looped.2.2
  { players := players
    balls := balls
    units := []
    grid := grid
    terrainGrid := generateTerrain o initGridTerrain
    pegs := pegs
    tick := 0
    catcherPhases := (List.range playerCount).map o.catcherPhase
    catcherPositions := List.replicate playerCount 50
    playerPegRefreshTimers := List.replicate playerCount 0
    scores := List.replicate playerCount 0
    territoryCounts := List.replicate playerCount 100
    winner := none
    catchStreaks := List.replicate playerCount 0
    missStreaks := List.replicate playerCount 0
    catchMultipliers := List.replicate playerCount 1
    catcherWidths := List.replicate playerCount 0
    pegHitCounts := List.replicate playerCount 0
    gamePhase := .early
    spawnAngles := (List.range playerCount).map
      (fun i => o.spawnAngleCenter i + (o.spawnAngleJitter i - 1/2) * 1) }

/-- The weighted production-area sums of `checkSurvival()`:
`(totalWeight, weightedControl)` over the sub-disc of radius
`Math.floor(baseRadius · 2 / 3)`, with `dist x y` standing for
`Math.sqrt(x² + y²)` in the cell weight
`Math.max(1, (productionRadius − distFromCenter) · 2)`. -/
def weightedControlData (grid : Grid) (dist : ℤ → ℤ → ℚ)
    (p : PlayerConfig) : ℚ × ℚ :=
  let productionRadius : ℤ := (p.baseRadius * 2 / 3).floor
  let baseCenterX := (p.basePosition.x * (MAP_GRID_SIZE : ℚ)).floor
  let baseCenterY := (p.basePosition.y * (MAP_GRID_SIZE : ℚ)).floor
  (offsetsUpTo productionRadius).foldl
    (fun acc y =>
      (offsetsUpTo productionRadius).foldl
        (fun acc x =>
          if x * x + y * y ≤ productionRadius * productionRadius then
            let weight := max 1 (((productionRadius : ℚ) - dist x y) * 2)
            let totalWeight := acc.1 + weight
            let gy := baseCenterY + y
            let gx := baseCenterX + x
            let weightedControl :=
              if 0 ≤ gy ∧ gy < (MAP_GRID_SIZE : ℤ) ∧ 0 ≤ gx ∧
                  gx < (MAP_GRID_SIZE : ℤ) ∧ cellAt grid gy gx = (p.id : ℤ) then
                acc.2 + weight
              else acc.2
            (totalWeight, weightedControl)
          else acc)
        acc)
    (0, 0)

/-- `weightedControlRatio` of `checkSurvival()`. -/
def weightedControlRatio (grid : Grid) (dist : ℤ → ℤ → ℚ)
    (p : PlayerConfig) : ℚ :=
  let data := weightedControlData grid dist p
  if data.1 > 0 then data.2 / data.1 else 0

/-- The per-player body of the `checkSurvival()` forEach, as a pure map on
the player record: set `coreHp` from the weighted ratio, clear `isAlive`
below the 0.1 floor.  (The raw `controlRatio` the source also computes on
lines 1048–1066 is never read afterwards and is omitted as dead code.) -/
def survivalStepPlayer (grid : Grid) (dist : ℤ → ℤ → ℚ)
    (p : PlayerConfig) : PlayerConfig :=
  if ¬p.isAlive then p
  else
    let ratio := weightedControlRatio grid dist p
    let p := { p with coreHp := ratio * 500 }
    if ratio < 1/10 then { p with isAlive := false } else p

/-- One iteration of the `checkSurvival()` forEach, threading the
processed players, the ball map and the `aliveCount` / `lastAliveId`
accumulators. -/
def survivalStep (grid : Grid) (dist : ℤ → ℤ → ℚ)
    (acc : List PlayerConfig × List (ℕ × BallState) × ℕ × ℤ)
    (p : PlayerConfig) : List PlayerConfig × List (ℕ × BallState) × ℕ × ℤ :=
  let done := acc.1
  let balls := acc.2.1
  let aliveCount := acc.2.2.1
  let lastAliveId := acc.2.2.2
  if ¬p.isAlive then (done ++ [p], balls, aliveCount, lastAliveId)
  else
    let ratio := weightedControlRatio grid dist p
    let p' := { p with coreHp := ratio * 500 }
    let elim := if ratio < 1/10 then
        ({ p' with isAlive := false }, balls.filter (fun e => e.1 ≠ p.id))
      else (p', balls)
    let p' := elim.1
    let balls := elim.2
    if p'.isAlive then (done ++ [p'], balls, aliveCount + 1, (p'.id : ℤ))
    else (done ++ [p'], balls, aliveCount, lastAliveId)

/-- The `checkSurvival()` forEach over the players, in source order. -/
def survivalFold (grid : Grid) (dist : ℤ → ℤ → ℚ)
    (players : List PlayerConfig) (balls : List (ℕ × BallState)) :
    List PlayerConfig × List (ℕ × BallState) × ℕ × ℤ :=
  players.foldl (survivalStep grid dist) ([], balls, 0, -1)

/-- `checkSurvival()`: the per-player forEach followed by the two win
conditions (single survivor, then first living player at full-grid
territory). -/
def checkSurvival (dist : ℤ → ℤ → ℚ) (s : EngineState) : EngineState :=
  let folded := survivalFold s.grid dist s.players s.balls
  let players := folded.1
  let balls := folded.2.1
  let aliveCount := folded.2.2.1
  let lastAliveId := folded.2.2.2
  let winner := if aliveCount = 1 then some lastAliveId else s.winner
  let totalPixels := MAP_GRID_SIZE * MAP_GRID_SIZE
  let winner :=
    match (List.range players.length).find?
        (fun i => (players.getD i default).isAlive ∧
          s.territoryCounts.getD i 0 ≥ totalPixels) with
    | some i => some (i : ℤ)
    | none => winner
  { s with players := players, balls := balls, winner := winner }

/-- The territory-count recomputation of `GameEngine.update` (executed
when territory changed or every 10th tick): scan the grid and tally each
non-neutral owner.  (`counts[owner]++` for an owner outside
`0 … players.length − 1` would extend the JS array; the `List.set` here is
a no-op instead — the difference is unobservable on well-owned grids.) -/
def recomputeCounts (grid : Grid) (numPlayers : ℕ) : List ℕ :=
  (List.range MAP_GRID_SIZE).foldl
    (fun counts (y : ℕ) =>
      (List.range MAP_GRID_SIZE).foldl
        (fun counts (x : ℕ) =>
          let owner := cellAt grid (y : ℤ) (x : ℤ)
          if owner ≠ -1 then
            counts.set owner.toNat (counts.getD owner.toNat 0 + 1)
          else counts)
        counts)
    (List.replicate numPlayers 0)

/-- Oracle for one `spawnWave` call, indexed by the unit number within the
wave.  `offAngleCos i`/`offAngleSin i` stand for `Math.cos`/`Math.sin` of
the random offset angle, `distRand i` for the `Math.random()` in
`randomDist`, `headCos i`/`headSin i` for the trigonometric images of the
unit's final heading `angleToCenter + angleOffset` (whose construction
from `Math.atan2` and the 60/30/10 % offset branches is absorbed into the
oracle), and `typeRand i` for the draw consumed by `selectUnitType`. -/
structure SpawnOracle where
  offAngleCos : ℕ → ℚ
  offAngleSin : ℕ → ℚ
  distRand : ℕ → ℚ
  headCos : ℕ → ℚ
  headSin : ℕ → ℚ
  typeRand : ℕ → ℚ

/-- Parse the string `selectUnitType` returns back into the `UnitType`
enum.  `"assault"` (or anything else) yields `none`: `UNIT_STATS[type]`
is `undefined` there and the `Unit` constructor would throw. -/
def parseUnitType : String → Option UnitType
  | "light" => some .light
  | "heavy" => some .heavy
  | _ => none

/-- The unit-spawning loop body of `spawnWave`, for wave index `i`. -/
def mkWaveUnit (o : SpawnOracle) (p : PlayerConfig) (phase : GamePhase)
    (bX bY hpMultiplier : ℚ) (unitMix : List (String × ℚ)) (i : ℕ) :
    Option Unit :=
  let productionRadius := p.baseRadius * 2 / 3
  let randomDist := o.distRand i * productionRadius
  let offsetX := o.offAngleCos i * randomDist
  let offsetY := o.offAngleSin i * randomDist
  let unitType := selectUnitType unitMix (o.typeRand i)
  match parseUnitType unitType with
  | none => none
  | some ut =>
    some (Unit.make (bX + offsetX) (bY + offsetY) p.id p.color
      (o.headCos i) (o.headSin i) ut hpMultiplier phase)

/-- The spawning loop of `spawnWave`: build the wave's units in order;
any unconstructible unit aborts the whole call (a thrown `TypeError` in
the source). -/
def buildWaveUnits (o : SpawnOracle) (p : PlayerConfig) (phase : GamePhase)
    (bX bY hpMultiplier : ℚ) (unitMix : List (String × ℚ)) :
    List ℕ → Option (List Unit)
  | [] => some []
  | i :: rest =>
    match mkWaveUnit o p phase bX bY hpMultiplier unitMix i with
    | none => none
    | some u =>
      match buildWaveUnits o p phase bX bY hpMultiplier unitMix rest with
      | none => none
      | some us => some (u :: us)

/-- `dominance` of `spawnWave`: `ownedPixels / totalPixels` clamped to
`[0.01, 1]`, where `ownedPixels = this.territoryCounts[playerId] || 100`
(a missing or zero entry falls back to 100 through JS falsiness). -/
def spawnDominance (s : EngineState) (playerId : ℕ) : ℚ :=
  let totalPixels := MAP_GRID_SIZE * MAP_GRID_SIZE
  let tc := s.territoryCounts.getD playerId 0
  let ownedPixels : ℚ := if tc = 0 then 100 else (tc : ℚ)
  min 1 (max (1/100) (ownedPixels / (totalPixels : ℚ)))

/-- `territoryPenalty` of `spawnWave`: 0.7 / 0.8 / 0.9 / 1 by dominance
band. -/
def spawnPenalty (dominance : ℚ) : ℚ :=
  if dominance < 5/100 then 7/10
  else if dominance < 10/100 then 8/10
  else if dominance < 15/100 then 9/10
  else 1

/-- The fully reduced `finalAmount` of `spawnWave`:
`amountBase + quantityBonus`, scaled by the territory penalty, floored,
then clamped to a minimum of 1. -/
def spawnFinalAmount (dominance : ℚ) (amountBase : ℤ) : ℤ :=
  max 1 (((amountBase + (dominance * 5).floor : ℤ) : ℚ) *
    spawnPenalty dominance).floor

/-- The fully reduced `catchUpBonus` of `spawnWave`: the sub-20 %
catch-up term, scaled by the territory penalty and floored. -/
def spawnCatchUp (dominance : ℚ) : ℤ :=
  (((if dominance < 20/100 then ((20/100 - dominance) * 5).floor
      else 0 : ℤ) : ℚ) * spawnPenalty dominance).floor

/-- The body of `spawnWave` past the dead-player guard, for the resolved
player config `p`. -/
def spawnWaveAlive (o : SpawnOracle) (s : EngineState) (playerId : ℕ)
    (amountBase : ℤ) (isJackpot : Bool) (p : PlayerConfig) :
    Option EngineState :=
  let bX := p.basePosition.x * (MAP_GRID_SIZE : ℚ)
  let bY := p.basePosition.y * (MAP_GRID_SIZE : ℚ)
  let dominance := spawnDominance s playerId
  let hpMultiplier := 1 + dominance * (4/10)
  let _spreadFactor := 1/2 + dominance * 1
  let _baseAngle := s.spawnAngles.getD playerId 0
  let unitMix := getUnitMix isJackpot
  match buildWaveUnits o p s.gamePhase bX bY hpMultiplier unitMix
      (List.range (spawnFinalAmount dominance amountBase +
        spawnCatchUp dominance).toNat) with
  | none => none
  | some newUnits => some { s with units := s.units ++ newUnits }

/-- `spawnWave(playerId, amountBase, isJackpot)`.  Returns `none` when the
source would throw (player index out of range, or an out-of-enum unit
type reaching the `Unit` constructor); otherwise the updated state. -/
def spawnWave (o : SpawnOracle) (s : EngineState) (playerId : ℕ)
    (amountBase : ℤ) (isJackpot : Bool) : Option EngineState :=
  match s.players.get? playerId with
  | none => none
  | some p =>
    if ¬p.isAlive then some s
    else spawnWaveAlive o s playerId amountBase isJackpot p

/-!
NaN-tracking model of the peg-collision block (lines 133–223 of
`Ball.update`), used to settle the degenerate-geometry claim.  A float is
`some q` (a real value) or `none` (NaN); every arithmetic operation
propagates NaN, and — as in IEEE/JS — every ordered comparison against
NaN is false.  Division maps a zero divisor to NaN: in this block the
divisor is `dist = Math.sqrt(dx² + dy²)`, which vanishes exactly when
both numerators `dx`, `dy` vanish, so the only division by zero the block
can reach is `0/0 = NaN`.
-/

/-- A JS number that may be NaN. -/
def FVal := Option ℚ
deriving DecidableEq, Repr

/-- NaN-propagating addition. -/
def fadd : FVal → FVal → FVal
  | some a, some b => some (a + b)
  | _, _ => none

/-- NaN-propagating subtraction. -/
def fsub : FVal → FVal → FVal
  | some a, some b => some (a - b)
  | _, _ => none

/-- NaN-propagating multiplication. -/
def fmul : FVal → FVal → FVal
  | some a, some b => some (a * b)
  | _, _ => none

/-- NaN-propagating negation. -/
def fneg : FVal → FVal
  | some a => some (-a)
  | none => none

/-- NaN-propagating division; a zero divisor yields NaN (see the section
comment: the block only ever divides by zero with a zero numerator). -/
def fdiv : FVal → FVal → FVal
  | some a, some b => if b = 0 then none else some (a / b)
  | _, _ => none

/-- `a < b` on JS numbers: false whenever either side is NaN. -/
def fltB : FVal → FVal → Bool
  | some a, some b => decide (a < b)
  | _, _ => false

/-- Ball state inside the NaN-tracking peg-collision model. -/
structure FBall where
  x : FVal
  y : FVal
  vx : FVal
  vy : FVal
  pegHitCount : ℤ
  comboPoints : ℤ
  maxComboPoints : ℤ
deriving DecidableEq, Repr

/-- The peg-collision block of `Ball.update` in the NaN-tracking model.
The ball enters the block with real components `x, y, vx, vy`;
`pegIncident`, `rotCos`, `rotSin` are as in `BallOracle`, and `distSqrt`
stands for `Math.sqrt(closestDistSq)` (exact at the inputs of interest:
`Math.sqrt 0 = 0`). -/
def pegCollisionF (pegIncident rotCos rotSin distSqrt : ℚ)
    (pegs : List Peg) (x y vx vy radius : ℚ)
    (pegHitCount comboPoints maxComboPoints : ℤ) : FBall :=
  let st : FBall :=
    { x := some x, y := some y, vx := some vx, vy := some vy
      pegHitCount := pegHitCount, comboPoints := comboPoints
      maxComboPoints := maxComboPoints }
  let pegRadius : ℚ := 4
  let minDist := radius + pegRadius
  let minDistSq := minDist * minDist
  match closestPegOf pegs x y with
  | some (closestPeg, closestDistSq, closestDx, closestDy) =>
    if closestDistSq < minDistSq then
      let dist : FVal := some distSqrt
      let nx := fdiv (some closestDx) dist
      let ny := fdiv (some closestDy) dist
      let dot := fadd (fmul st.vx nx) (fmul st.vy ny)
      let st :=
        if fltB dot (some 0) then
          let angleFactor := 1 - (pegIncident / 180) * (3/10)
          let effectiveDamping := BOUNCE_DAMPING * angleFactor
          let tx := fneg ny
          let ty := nx
          let tangentialVel := fadd (fmul st.vx tx) (fmul st.vy ty)
          let reflectedNormalVel := fmul (fneg dot) (some effectiveDamping)
          let newTangentialVel := fmul tangentialVel (some (95/100))
          let st := { st with
            vx := fadd (fmul reflectedNormalVel nx) (fmul newTangentialVel tx)
            vy := fadd (fmul reflectedNormalVel ny) (fmul newTangentialVel ty) }
          let st := { st with
            vx := fsub (fmul st.vx (some rotCos)) (fmul st.vy (some rotSin))
            vy := fadd (fmul st.vx (some rotSin)) (fmul st.vy (some rotCos)) }
          let st := { st with pegHitCount := st.pegHitCount + 1 }
          let st :=
            if closestPeg.type = "normal" then
              { st with comboPoints := st.comboPoints + 1 }
            else if closestPeg.type = "gold" then
              { st with comboPoints := st.comboPoints + 3 }
            else if closestPeg.type = "red" then
              { st with comboPoints := st.comboPoints - 2 }
            else st
          { st with maxComboPoints := max st.maxComboPoints st.comboPoints }
        else st
      let overlap := fsub (some minDist) dist
      { st with x := fadd st.x (fmul nx overlap)
                y := fadd st.y (fmul ny overlap) }
    else st
  | none => st

/-!  Helper lemmas. -/

/-- A fold preserves any invariant its step preserves. -/
lemma foldl_preserve {α β : Type} (P : α → Prop) (f : α → β → α)
    (l : List β) (a : α) (hstep : ∀ a b, P a → P (f a b)) (ha : P a) :
    P (l.foldl f a) := by
  induction l generalizing a with
  | nil => exact ha
  | cons b l ih => exact ih _ (hstep _ _ ha)

/-- The base score always lies in the documented discrete set. -/
lemma baseScoreOf_mem (s : ℚ) : baseScoreOf s ∈ ([0, 1, 2, 4, 8] : List ℤ) := by
  unfold baseScoreOf
  split_ifs <;> simp

/-- The reward expression as the specification states it:
`floor(base × speedFactor × comboFactor × (1 − positionPenalty))` clamped
at 0, where the position penalty is half the x-position factor. -/
def specRewardFormula (o : BallOracle) (b : BallState) : ℤ :=
  max 0 (((baseScoreOf (randomSeedOf o b) : ℚ) * min 1 (o.speedSqrt / 10)
    * min 2 (1 + (b.comboPoints : ℚ) / 20)
    * (1 - (|b.x - 50| / 50) * (1/2))).floor)

/-- Behaviour of the scoring block: non-negative, zero above the floor
boundary, the documented formula below it. -/
lemma ballScoringStep_spec (o : BallOracle) (h : ℚ) (b : BallState)
    (sq : ℚ) :
    0 ≤ ballScoringStep o h b sq ∧
    (b.y ≤ h + b.radius → ballScoringStep o h b sq = 0) ∧
    (h + b.radius < b.y → ballScoringStep o h b sq = specRewardFormula o b) := by
  unfold ballScoringStep specRewardFormula
  split_ifs with hy
  · refine ⟨le_max_left _ _, fun hle => absurd hy (not_lt.mpr hle), fun _ => rfl⟩
  · exact ⟨le_refl 0, fun _ => rfl, fun hgt => absurd hgt hy⟩

/-- `ballUpdate` is the physics step followed by the scoring block. -/
lemma ballUpdate_eq (o : BallOracle) (width height : ℚ) (pegs : List Peg)
    (b : BallState) :
    ballUpdate o width height pegs b =
      ((ballPhysicsStep o width pegs b).1,
        ballScoringStep o height (ballPhysicsStep o width pegs b).1
          (ballPhysicsStep o width pegs b).2) := by
  unfold ballUpdate
  rcases ballPhysicsStep o width pegs b with ⟨b', sq⟩
  rfl

/-- C2 — Ball reward non-negativity: `Ball.update` never returns a
negative value; it returns 0 whenever the resulting `y` does not exceed
`height + radius`, and on the tick the ball crosses below the floor
boundary it returns exactly
`floor(base × speedFactor × comboFactor × (1 − positionPenalty))` clamped
at 0, with the base score drawn from the discrete set {0, 1, 2, 4, 8}. -/
theorem ball_reward_nonneg (o : BallOracle) (width height : ℚ)
    (pegs : List Peg) (b : BallState) :
    0 ≤ (ballUpdate o width height pegs b).2 ∧
    ((ballUpdate o width height pegs b).1.y ≤
        height + (ballUpdate o width height pegs b).1.radius →
      (ballUpdate o width height pegs b).2 = 0) ∧
    (height + (ballUpdate o width height pegs b).1.radius <
        (ballUpdate o width height pegs b).1.y →
      (ballUpdate o width height pegs b).2 =
        specRewardFormula o (ballUpdate o width height pegs b).1) ∧
    baseScoreOf (randomSeedOf o (ballUpdate o width height pegs b).1) ∈
      ([0, 1, 2, 4, 8] : List ℤ) := by
  rw [ballUpdate_eq]
  have hs := ballScoringStep_spec o height (ballPhysicsStep o width pegs b).1
    (ballPhysicsStep o width pegs b).2
  exact ⟨hs.1, hs.2.1, hs.2.2, baseScoreOf_mem _⟩

/-- An all-zero ball oracle, used to instantiate the theorems on a
concrete tick. -/
def ballOracleZero : BallOracle :=
  { stuckRand1 := 0, stuckRand2 := 0, incidentLeft := 0, incidentRight := 0
    pegIncident := 0, rotCos := 1, rotSin := 0, pegDistSqrt := 0
    speedSqrt := 0, scoreRand := 0 }

/-- Witness for C2: a freshly dropped ball is still above the floor after
one tick and the update returns 0. -/
theorem ball_reward_nonneg_witness :
    (ballUpdate ballOracleZero 100 150 []
      (BallState.make 50 0 "c" (1/2) 0)).2 = 0 :=
  (ball_reward_nonneg ballOracleZero 100 150 []
    (BallState.make 50 0 "c" (1/2) 0)).2.1 (by with_unfolding_all decide)

/-- C9 helper (shared with the spawn-wave claim): on a unit mix produced
by `getUnitMix` the cumulative-threshold loop returns `"light"` or
`"heavy"` for every draw in `[0, 1)`. -/
lemma selectUnitType_mix_mem (isJackpot : Bool) (rand : ℚ)
    (h1 : rand < 1) :
    selectUnitType (getUnitMix isJackpot) rand = "light" ∨
      selectUnitType (getUnitMix isJackpot) rand = "heavy" := by
  cases isJackpot <;>
    simp only [selectUnitType, getUnitMix, selectUnitTypeGo,
      Bool.false_eq_true, if_false, if_true] <;>
    split_ifs with hA hB <;> first
      | exact Or.inl rfl
      | exact Or.inr rfl
      | (exfalso; apply hB; linarith)

/-- C9 — `selectUnitType` totality: every mix `getUnitMix` produces has
weights summing to 1, and for every draw in `[0, 1)` the selection
returns a member of the defined type set {light, heavy}; the `'assault'`
fall-through is unreachable under that precondition. -/
theorem selectUnitType_total (isJackpot : Bool) (rand : ℚ)
    (h0 : 0 ≤ rand) (h1 : rand < 1) :
    ((getUnitMix isJackpot).map Prod.snd).sum = 1 ∧
    (selectUnitType (getUnitMix isJackpot) rand = "light" ∨
      selectUnitType (getUnitMix isJackpot) rand = "heavy") ∧
    selectUnitType (getUnitMix isJackpot) rand ≠ "assault" := by
  refine ⟨?_, selectUnitType_mix_mem isJackpot rand h1, ?_⟩
  · cases isJackpot <;> simp [getUnitMix] <;> norm_num
  · rcases selectUnitType_mix_mem isJackpot rand h1 with h | h <;>
      simp [h]

/-- Witness for C9: the jackpot mix with draw 1/2 selects `"heavy"`. -/
theorem selectUnitType_total_witness :
    ((getUnitMix true).map Prod.snd).sum = 1 ∧
    (selectUnitType (getUnitMix true) (1/2) = "light" ∨
      selectUnitType (getUnitMix true) (1/2) = "heavy") ∧
    selectUnitType (getUnitMix true) (1/2) ≠ "assault" :=
  selectUnitType_total true (1/2) (by norm_num) (by norm_num)

/-- C8 — the degenerate-geometry claim fails on the code: when the ball's
center coincides exactly with a peg's center, the `dot < 0` guard does
skip the velocity response (every comparison with NaN is false), but the
unguarded position correction computes `x += (0/0)·overlap`, so the
resulting `x` and `y` are NaN.  Evaluated at the failing input: ball at
(50, 50) with velocity (0, 3) and a peg at (50, 50). -/
theorem peg_zero_distance_nan :
    (pegCollisionF 0 1 0 0 [⟨50, 50, "normal", 1⟩] 50 50 0 3 6 0 0 0).x
        = none ∧
    (pegCollisionF 0 1 0 0 [⟨50, 50, "normal", 1⟩] 50 50 0 3 6 0 0 0).y
        = none ∧
    (pegCollisionF 0 1 0 0 [⟨50, 50, "normal", 1⟩] 50 50 0 3 6 0 0 0).vx
        = some 0 ∧
    (pegCollisionF 0 1 0 0 [⟨50, 50, "normal", 1⟩] 50 50 0 3 6 0 0 0).vy
        = some 3 := by
  with_unfolding_all decide

/-- The grid's cells in row-major order. -/
def gridCellsList (grid : Grid) : List ℤ :=
  (List.range MAP_GRID_SIZE).flatMap
    (fun (y : ℕ) =>
      (List.range MAP_GRID_SIZE).map (fun (x : ℕ) => cellAt grid (y : ℤ) (x : ℤ)))

/-- The number of neutral cells of the grid. -/
def neutralCount (grid : Grid) : ℕ := (gridCellsList grid).count (-1)

/-- The number of cells of the 100×100 grid owned by player `pid`. -/
def countOwner (grid : Grid) (pid : ℕ) : ℕ :=
  ((List.range MAP_GRID_SIZE).map (fun (y : ℕ) =>
    ((List.range MAP_GRID_SIZE).filter
      (fun (x : ℕ) => cellAt grid (y : ℤ) (x : ℤ) = (pid : ℤ))).length)).sum

/-- The concrete setup oracle for a two-player match: `baseCos`/`baseSin`
are the exact values of `cos`/`sin` at the angles `0` and `π` that
`setup(2)` computes; every random draw is 0. -/
def oracleC7 : SetupOracle :=
  { baseCos := fun i => if i = 0 then 1 else -1
    baseSin := fun _ => 0
    catcherPhase := fun _ => 0, pegOffset := fun _ => 0
    pegTypeRand := fun _ => 0, ballStartRand := fun _ => 0
    ballVxRand := fun _ => 0, ballVyRand := fun _ => 0
    spawnAngleCenter := fun _ => 0, spawnAngleJitter := fun _ => 0
    highCx := fun _ => 0, highCy := fun _ => 0, highR := fun _ => 0
    obsCx := fun _ => 0, obsCy := fun _ => 0, obsR := fun _ => 0
    supCx := fun _ => 0, supCy := fun _ => 0 }

/-- A 100×100 grid shape. -/
def gridShaped (grid : Grid) : Prop :=
  grid.length = MAP_GRID_SIZE ∧ ∀ row ∈ grid, row.length = MAP_GRID_SIZE

/-- `List.getD` after `List.set`. -/
lemma getD_set {α : Type} (l : List α) (i j : ℕ) (v d : α) :
    (l.set i v).getD j d =
      if i = j ∧ j < l.length then v else l.getD j d := by
  simp only [List.getD_eq_getElem?_getD, List.getElem?_set]
  by_cases hij : i = j
  · subst hij
    by_cases hi : i < l.length
    · simp [hi]
    · simp [hi, List.getElem?_eq_none (Nat.le_of_not_lt hi)]
  · simp [hij]

/-- `set2d` preserves the grid shape. -/
lemma gridShaped_set2d (grid : Grid) (y x : ℤ) (v : ℤ)
    (h : gridShaped grid) : gridShaped (set2d grid y x v) := by
  obtain ⟨hlen, hrow⟩ := h
  by_cases hy : y.toNat < grid.length
  · refine ⟨by simp [set2d, hlen], ?_⟩
    intro row hr
    rcases List.mem_or_eq_of_mem_set hr with hr' | hr'
    · exact hrow _ hr'
    · subst hr'
      have hmem : grid.getD y.toNat [] ∈ grid := by
        rw [List.getD_eq_getElem?_getD, List.getElem?_eq_getElem hy]
        exact List.getElem_mem hy
      simpa using hrow _ hmem
  · have : set2d grid y x v = grid := by
      unfold set2d
      exact List.set_eq_of_length_le (Nat.le_of_not_lt hy)
    rw [this]
    exact ⟨hlen, hrow⟩

/-- Reading a cell after `set2d`, on a shaped grid with both addresses in
bounds. -/
lemma cellAt_set2d (grid : Grid) (y x Y X v : ℤ)
    (hg : gridShaped grid)
    (hy : 0 ≤ y ∧ y < (MAP_GRID_SIZE : ℤ)) (hx : 0 ≤ x ∧ x < (MAP_GRID_SIZE : ℤ))
    (hY : 0 ≤ Y ∧ Y < (MAP_GRID_SIZE : ℤ)) (hX : 0 ≤ X ∧ X < (MAP_GRID_SIZE : ℤ)) :
    cellAt (set2d grid y x v) Y X =
      if y = Y ∧ x = X then v else cellAt grid Y X := by
  obtain ⟨hlen, hrow⟩ := hg
  simp only [MAP_GRID_SIZE] at hlen hy hx hY hX
  have hyN : y.toNat < grid.length := by omega
  have hmem : grid.getD y.toNat [] ∈ grid := by
    rw [List.getD_eq_getElem?_getD, List.getElem?_eq_getElem hyN]
    exact List.getElem_mem hyN
  have hrowlen : (grid.getD y.toNat []).length = 100 := by
    simpa [MAP_GRID_SIZE] using hrow _ hmem
  unfold cellAt set2d
  rw [getD_set]
  by_cases hyY : y = Y
  · subst hyY
    simp only [hyN, and_true, eq_self_iff_true, if_true, true_and]
    rw [getD_set]
    by_cases hxX : x = X
    · subst hxX
      have hxN : x.toNat < (grid.getD y.toNat []).length := by omega
      rw [if_pos ⟨rfl, hxN⟩, if_pos rfl]
    · have : ¬(x.toNat = X.toNat) := by omega
      simp [this, hxX]
  · have : ¬(y.toNat = Y.toNat) := by omega
    simp [this, hyY]

/-- Reading the all-neutral grid. -/
lemma cellAt_initGridTerritory (Y X : ℤ) : cellAt initGridTerritory Y X = -1 := by
  unfold cellAt initGridTerritory
  by_cases hY : Y.toNat < MAP_GRID_SIZE
  · rw [show (List.replicate MAP_GRID_SIZE (List.replicate MAP_GRID_SIZE (-1 : ℤ))).getD Y.toNat []
        = List.replicate MAP_GRID_SIZE (-1 : ℤ) from by
      simp [List.getD_eq_getElem?_getD, List.getElem?_replicate, hY]]
    by_cases hX : X.toNat < MAP_GRID_SIZE <;>
      simp [List.getD_eq_getElem?_getD, List.getElem?_replicate, hX]
  · rw [show (List.replicate MAP_GRID_SIZE (List.replicate MAP_GRID_SIZE (-1 : ℤ))).getD Y.toNat []
        = [] from by
      simp [List.getD_eq_getElem?_getD, List.getElem?_replicate, hY]]
    rfl

/-- The all-neutral grid is shaped. -/
lemma gridShaped_initGridTerritory : gridShaped initGridTerritory := by
  constructor
  · simp [initGridTerritory]
  · intro row hr
    rw [List.eq_of_mem_replicate hr]
    simp [initGridTerritory]

/-- Membership in the integer offset range. -/
lemma mem_offsetsUpTo (r a : ℤ) (hr : 0 ≤ r) :
    a ∈ offsetsUpTo r ↔ -r ≤ a ∧ a ≤ r := by
  unfold offsetsUpTo
  rw [if_neg (not_lt.mpr hr)]
  simp only [List.mem_map, List.mem_range]
  constructor
  · rintro ⟨k, hk, rfl⟩
    omega
  · rintro ⟨h1, h2⟩
    exact ⟨(a + r).toNat, by omega, by omega⟩


/-- Closed form for the inner (x-offset) loop of `initializeTerritory`:
a cell inside the grid reads `pid` exactly when some processed offset
passes the disc test and addresses that cell. -/
lemma cellAt_paint_inner (pid : ℕ) (cX cY y Y X : ℤ) (l : List ℤ)
    (g : Grid) (hg : gridShaped g)
    (hY : 0 ≤ Y ∧ Y < (MAP_GRID_SIZE : ℤ)) (hX : 0 ≤ X ∧ X < (MAP_GRID_SIZE : ℤ)) :
    cellAt (l.foldl (fun grid x =>
      if x * x + y * y ≤ 18 * 18 then
        let gy := cY + y
        let gx := cX + x
        if 0 ≤ gy ∧ gy < (MAP_GRID_SIZE : ℤ) ∧ 0 ≤ gx ∧
            gx < (MAP_GRID_SIZE : ℤ) then
          set2d grid gy gx (pid : ℤ)
        else grid
      else grid) g) Y X =
      if ∃ x ∈ l, x * x + y * y ≤ 18 * 18 ∧ cY + y = Y ∧ cX + x = X then
        (pid : ℤ)
      else cellAt g Y X := by
  induction l generalizing g with
  | nil => simp
  | cons a l ih =>
    have hstep : gridShaped (if a * a + y * y ≤ 18 * 18 then
        (if 0 ≤ cY + y ∧ cY + y < (MAP_GRID_SIZE : ℤ) ∧ 0 ≤ cX + a ∧
            cX + a < (MAP_GRID_SIZE : ℤ) then
          set2d g (cY + y) (cX + a) (pid : ℤ)
        else g)
      else g) := by
      split_ifs <;> first | exact gridShaped_set2d _ _ _ _ hg | exact hg
    rw [List.foldl_cons, ih _ hstep]
    by_cases hl : ∃ x ∈ l, x * x + y * y ≤ 18 * 18 ∧ cY + y = Y ∧ cX + x = X
    · rw [if_pos hl]
      obtain ⟨x, hxl, hpx⟩ := hl
      rw [if_pos ⟨x, List.mem_cons_of_mem _ hxl, hpx⟩]
    · rw [if_neg hl]
      by_cases hd : a * a + y * y ≤ 18 * 18
      · by_cases hb : 0 ≤ cY + y ∧ cY + y < (MAP_GRID_SIZE : ℤ) ∧ 0 ≤ cX + a ∧
            cX + a < (MAP_GRID_SIZE : ℤ)
        · rw [if_pos hd, if_pos hb,
            cellAt_set2d g (cY + y) (cX + a) Y X (pid : ℤ) hg
              ⟨hb.1, hb.2.1⟩ ⟨hb.2.2.1, hb.2.2.2⟩ hY hX]
          by_cases hm : cY + y = Y ∧ cX + a = X
          · rw [if_pos hm, if_pos ⟨a, List.mem_cons_self a l, hd, hm.1, hm.2⟩]
          · rw [if_neg hm, if_neg ?_]
            rintro ⟨x, hx, hxd, hxm⟩
            rcases List.mem_cons.mp hx with rfl | hx'
            · exact hm ⟨hxm.1, hxm.2⟩
            · exact hl ⟨x, hx', hxd, hxm⟩
        · rw [if_pos hd, if_neg hb, if_neg ?_]
          rintro ⟨x, hx, hxd, hxm⟩
          rcases List.mem_cons.mp hx with rfl | hx'
          · exact hb ⟨by omega, by omega, by omega, by omega⟩
          · exact hl ⟨x, hx', hxd, hxm⟩
      · rw [if_neg hd, if_neg ?_]
        rintro ⟨x, hx, hxd, hxm⟩
        rcases List.mem_cons.mp hx with rfl | hx'
        · exact hd hxd
        · exact hl ⟨x, hx', hxd, hxm⟩


/-- The inner (x-offset) loop of `initializeTerritory` preserves the grid
shape. -/
lemma gridShaped_paint_inner (pid : ℕ) (cX cY y : ℤ) (l : List ℤ)
    (g : Grid) (hg : gridShaped g) :
    gridShaped (l.foldl (fun grid x =>
      if x * x + y * y ≤ 18 * 18 then
        let gy := cY + y
        let gx := cX + x
        if 0 ≤ gy ∧ gy < (MAP_GRID_SIZE : ℤ) ∧ 0 ≤ gx ∧
            gx < (MAP_GRID_SIZE : ℤ) then
          set2d grid gy gx (pid : ℤ)
        else grid
      else grid) g) := by
  apply foldl_preserve gridShaped
  · intro g' x hg'
    dsimp only
    split_ifs <;> first | exact gridShaped_set2d _ _ _ _ hg' | exact hg'
  · exact hg

/-- Closed form for the full nested offset loop of `initializeTerritory`. -/
lemma cellAt_paint_outer (pid : ℕ) (cX cY Y X : ℤ) (ys : List ℤ)
    (g : Grid) (hg : gridShaped g)
    (hY : 0 ≤ Y ∧ Y < (MAP_GRID_SIZE : ℤ)) (hX : 0 ≤ X ∧ X < (MAP_GRID_SIZE : ℤ)) :
    cellAt (ys.foldl (fun grid y =>
      (offsetsUpTo 18).foldl (fun grid x =>
        if x * x + y * y ≤ 18 * 18 then
          let gy := cY + y
          let gx := cX + x
          if 0 ≤ gy ∧ gy < (MAP_GRID_SIZE : ℤ) ∧ 0 ≤ gx ∧
              gx < (MAP_GRID_SIZE : ℤ) then
            set2d grid gy gx (pid : ℤ)
          else grid
        else grid) grid) g) Y X =
      if ∃ y ∈ ys, ∃ x ∈ offsetsUpTo 18,
          x * x + y * y ≤ 18 * 18 ∧ cY + y = Y ∧ cX + x = X then
        (pid : ℤ)
      else cellAt g Y X := by
  induction ys generalizing g with
  | nil => simp
  | cons a ys ih =>
    rw [List.foldl_cons, ih _ (gridShaped_paint_inner pid cX cY a _ g hg)]
    by_cases hl : ∃ y ∈ ys, ∃ x ∈ offsetsUpTo 18,
        x * x + y * y ≤ 18 * 18 ∧ cY + y = Y ∧ cX + x = X
    · rw [if_pos hl]
      obtain ⟨y, hyl, hpy⟩ := hl
      rw [if_pos ⟨y, List.mem_cons_of_mem _ hyl, hpy⟩]
    · rw [if_neg hl, cellAt_paint_inner pid cX cY a Y X _ g hg hY hX]
      by_cases ha : ∃ x ∈ offsetsUpTo 18,
          x * x + a * a ≤ 18 * 18 ∧ cY + a = Y ∧ cX + x = X
      · rw [if_pos ha, if_pos ?_]
        obtain ⟨x, hx, hxd, hxm⟩ := ha
        exact ⟨a, List.mem_cons_self a ys, x, hx, by linarith, hxm⟩
      · rw [if_neg ha, if_neg ?_]
        rintro ⟨y, hy, x, hx, hxd, hxm⟩
        rcases List.mem_cons.mp hy with rfl | hy'
        · exact ha ⟨x, hx, by linarith, hxm⟩
        · exact hl ⟨y, hy', x, hx, hxd, hxm⟩

/-- `initializeTerritory` preserves the grid shape. -/
lemma gridShaped_initializeTerritory (grid : Grid) (pid : ℕ) (pos : Point)
    (hg : gridShaped grid) : gridShaped (initializeTerritory grid pid pos) := by
  unfold initializeTerritory
  apply foldl_preserve gridShaped
  · intro g' y hg'
    exact gridShaped_paint_inner pid _ _ y _ g' hg'
  · exact hg

/-- The closed form of `initializeTerritory`: inside the grid, a cell
reads `pid` exactly on the radius-18 disc around the base center, and is
untouched elsewhere. -/
lemma cellAt_initializeTerritory (grid : Grid) (pid : ℕ) (pos : Point)
    (hg : gridShaped grid) (Y X : ℤ)
    (hY : 0 ≤ Y ∧ Y < (MAP_GRID_SIZE : ℤ)) (hX : 0 ≤ X ∧ X < (MAP_GRID_SIZE : ℤ)) :
    cellAt (initializeTerritory grid pid pos) Y X =
      if (X - (pos.x * (MAP_GRID_SIZE : ℚ)).floor) *
            (X - (pos.x * (MAP_GRID_SIZE : ℚ)).floor) +
          (Y - (pos.y * (MAP_GRID_SIZE : ℚ)).floor) *
            (Y - (pos.y * (MAP_GRID_SIZE : ℚ)).floor) ≤ 324 then
        (pid : ℤ)
      else cellAt grid Y X := by
  unfold initializeTerritory
  rw [cellAt_paint_outer pid _ _ Y X _ grid hg hY hX]
  set cX := (pos.x * (MAP_GRID_SIZE : ℚ)).floor with hcX
  set cY := (pos.y * (MAP_GRID_SIZE : ℚ)).floor with hcY
  congr 1
  rw [eq_iff_iff]
  constructor
  · rintro ⟨y, hy, x, hx, hxd, hm1, hm2⟩
    have hx' : x = X - cX := by omega
    have hy' : y = Y - cY := by omega
    subst hx' hy'
    nlinarith
  · intro h
    have h1 : (Y - cY) * (Y - cY) ≤ 324 := by nlinarith [mul_self_nonneg (X - cX)]
    have h2 : (X - cX) * (X - cX) ≤ 324 := by nlinarith [mul_self_nonneg (Y - cY)]
    have hY1 : -18 ≤ Y - cY := by nlinarith [mul_self_nonneg (Y - cY + 18)]
    have hY2 : Y - cY ≤ 18 := by nlinarith [mul_self_nonneg (Y - cY - 18)]
    have hX1 : -18 ≤ X - cX := by nlinarith [mul_self_nonneg (X - cX + 18)]
    have hX2 : X - cX ≤ 18 := by nlinarith [mul_self_nonneg (X - cX - 18)]
    exact ⟨Y - cY, (mem_offsetsUpTo 18 _ (by norm_num)).mpr ⟨hY1, hY2⟩,
      X - cX, (mem_offsetsUpTo 18 _ (by norm_num)).mpr ⟨hX1, hX2⟩,
      by nlinarith, by omega, by omega⟩

set_option maxHeartbeats 2000000 in
/-- The grid `setup(2)` builds with the `oracleC7` draws: the two base
discs painted in player order into the fresh grid. -/
lemma setupC7_grid :
    (setup initialEngine 2 oracleC7).grid =
      initializeTerritory
        (initializeTerritory initGridTerritory 0
          ⟨1/2 + (2/5) * 1, 1/2 + (2/5) * 0⟩) 1
        ⟨1/2 + (2/5) * (-1), 1/2 + (2/5) * 0⟩ := by
  show (setup initialEngine 2 oracleC7).grid = _
  simp only [setup]
  norm_num [oracleC7, List.range_succ]

/-- C7 — setup reset (amended): `setup(playerCount)` overwrites every
per-match mutable field, so two calls with the same argument and draws
agree exactly and nothing leaks from the prior match; scores are all 0,
the unit list is empty, the winner is null, the tick is 0 — but
`territoryCounts` is reset to the constant placeholder 100 per player,
not to the painted base-disc cell counts. -/
theorem setup_reset (s₁ s₂ : EngineState) (n : ℕ) (o : SetupOracle) :
    setup s₁ n o = setup s₂ n o ∧
    (setup s₁ n o).scores = List.replicate n 0 ∧
    (setup s₁ n o).units = [] ∧
    (setup s₁ n o).winner = none ∧
    (setup s₁ n o).tick = 0 ∧
    (setup s₁ n o).territoryCounts = List.replicate n 100 :=
  ⟨rfl, rfl, rfl, rfl, rfl, rfl⟩

set_option maxRecDepth 40000 in
/-- C7 — counterexample to the claim as stated: after `setup(2)` the
`territoryCounts` entry of player 0 is 100, while the number of grid
cells actually painted for player 0's radius-18 base disc (clipped at the
right edge) is 828. -/
theorem setup_reset_counterexample :
    (setup initialEngine 2 oracleC7).territoryCounts.getD 0 0 = 100 ∧
    countOwner (setup initialEngine 2 oracleC7).grid 0 = 828 ∧
    (100 : ℕ) ≠ 828 := by
  refine ⟨rfl, ?_, by norm_num⟩
  rw [setupC7_grid]
  have hsh0 : gridShaped (initializeTerritory initGridTerritory 0
      ⟨1/2 + (2/5) * 1, 1/2 + (2/5) * 0⟩) :=
    gridShaped_initializeTerritory _ _ _ gridShaped_initGridTerritory
  have hf90 : (((1/2 + (2/5) * 1 : ℚ)) * (MAP_GRID_SIZE : ℚ)).floor = 90 := by
    with_unfolding_all decide
  have hf10 : (((1/2 + (2/5) * (-1) : ℚ)) * (MAP_GRID_SIZE : ℚ)).floor = 10 := by
    with_unfolding_all decide
  have hf50 : (((1/2 + (2/5) * 0 : ℚ)) * (MAP_GRID_SIZE : ℚ)).floor = 50 := by
    with_unfolding_all decide
  have hcell : ∀ y ∈ List.range MAP_GRID_SIZE, ∀ x ∈ List.range MAP_GRID_SIZE,
      cellAt (initializeTerritory
          (initializeTerritory initGridTerritory 0
            ⟨1/2 + (2/5) * 1, 1/2 + (2/5) * 0⟩) 1
          ⟨1/2 + (2/5) * (-1), 1/2 + (2/5) * 0⟩) (y : ℤ) (x : ℤ) =
        (if ((x : ℤ) - 10) * ((x : ℤ) - 10) +
              ((y : ℤ) - 50) * ((y : ℤ) - 50) ≤ 324 then (1 : ℤ)
          else if ((x : ℤ) - 90) * ((x : ℤ) - 90) +
              ((y : ℤ) - 50) * ((y : ℤ) - 50) ≤ 324 then 0 else -1) := by
    intro y hy x hx
    rw [List.mem_range] at hy hx
    have hY : 0 ≤ (y : ℤ) ∧ (y : ℤ) < (MAP_GRID_SIZE : ℤ) := by
      simp only [MAP_GRID_SIZE] at hy ⊢
      omega
    have hX : 0 ≤ (x : ℤ) ∧ (x : ℤ) < (MAP_GRID_SIZE : ℤ) := by
      simp only [MAP_GRID_SIZE] at hx ⊢
      omega
    rw [cellAt_initializeTerritory _ _ _ hsh0 _ _ hY hX,
      cellAt_initializeTerritory _ _ _ gridShaped_initGridTerritory _ _ hY hX,
      cellAt_initGridTerritory, hf90, hf10, hf50]
    norm_num
  unfold countOwner
  rw [List.map_congr_left (g := fun (y : ℕ) =>
    ((List.range MAP_GRID_SIZE).filter
      (fun (x : ℕ) => decide ((if ((x : ℤ) - 10) * ((x : ℤ) - 10) +
            ((y : ℤ) - 50) * ((y : ℤ) - 50) ≤ 324 then (1 : ℤ)
          else if ((x : ℤ) - 90) * ((x : ℤ) - 90) +
            ((y : ℤ) - 50) * ((y : ℤ) - 50) ≤ 324 then 0 else -1) =
          ((0 : ℕ) : ℤ)))).length) ?_]
  · with_unfolding_all decide
  · intro y hy
    refine congrArg List.length (List.filter_congr ?_)
    intro x hx
    simp only [hcell y hy x hx]

/-- The trail block touches only the `trail` field. -/
@[simp] lemma unitTrailStep_x (u : Unit) : (unitTrailStep u).x = u.x := by
  unfold unitTrailStep
  split_ifs <;> rfl

@[simp] lemma unitTrailStep_y (u : Unit) : (unitTrailStep u).y = u.y := by
  unfold unitTrailStep
  split_ifs <;> rfl

@[simp] lemma unitTrailStep_cosAngle (u : Unit) :
    (unitTrailStep u).cosAngle = u.cosAngle := by
  unfold unitTrailStep
  split_ifs <;> rfl

@[simp] lemma unitTrailStep_sinAngle (u : Unit) :
    (unitTrailStep u).sinAngle = u.sinAngle := by
  unfold unitTrailStep
  split_ifs <;> rfl

@[simp] lemma unitTrailStep_speed (u : Unit) :
    (unitTrailStep u).speed = u.speed := by
  unfold unitTrailStep
  split_ifs <;> rfl

@[simp] lemma unitTrailStep_playerId (u : Unit) :
    (unitTrailStep u).playerId = u.playerId := by
  unfold unitTrailStep
  split_ifs <;> rfl

@[simp] lemma unitTrailStep_anchor (u : Unit) :
    (unitTrailStep u).leftTerritoryPosition = u.leftTerritoryPosition := by
  unfold unitTrailStep
  split_ifs <;> rfl

@[simp] lemma unitTrailStep_maxDistance (u : Unit) :
    (unitTrailStep u).maxDistance = u.maxDistance := by
  unfold unitTrailStep
  split_ifs <;> rfl

/-- The excursion check fires: outside own territory, with a recorded
anchor, past the budget. -/
lemma unitAnchorStep_exceeded (u : Unit) (owner : ℤ) (a : Point)
    (hown : ¬(owner = (u.playerId : ℤ)))
    (hanchor : u.leftTerritoryPosition = some a)
    (hex : sqrtGtB ((u.x - a.x) ^ 2 + (u.y - a.y) ^ 2) u.maxDistance = true) :
    unitAnchorStep u owner = (u, true) := by
  unfold unitAnchorStep
  rw [if_neg hown, hanchor]
  simp [hex]

/-- C6 — unit excursion bound: an active unit that is outside its own
territory with a recorded exit anchor and whose post-movement distance
from that anchor exceeds its type's `maxDistance` is deactivated by the
same `Unit.update` call, which returns `false` (the distance comparison
`Math.sqrt(d) > maxDistance` is taken squared via `sqrtGtB`). -/
theorem unit_excursion_bound (grid : Grid)
    (terrainGrid : List (List TerrainCell)) (gridSize : ℕ)
    (players : List PlayerConfig) (allUnits : List Unit) (u : Unit)
    (a : Point) (hactive : u.active = true)
    (hanchor : u.leftTerritoryPosition = some a)
    (houtside :
      ¬(cellAt grid (u.y + u.sinAngle * u.speed).floor
          (u.x + u.cosAngle * u.speed).floor = (u.playerId : ℤ)))
    (hexceed :
      sqrtGtB (((u.x + u.cosAngle * u.speed) - a.x) ^ 2 +
          ((u.y + u.sinAngle * u.speed) - a.y) ^ 2) u.maxDistance = true) :
    (unitUpdate grid terrainGrid gridSize players allUnits u).1.active = false ∧
    (unitUpdate grid terrainGrid gridSize players allUnits u).2.2 = false := by
  have hne : ¬(u.active = false) := by simp [hactive]
  unfold unitUpdate
  rw [if_neg hne]
  simp only [unitTrailStep_x, unitTrailStep_y, unitTrailStep_cosAngle,
    unitTrailStep_sinAngle, unitTrailStep_speed, unitTrailStep_playerId,
    unitTrailStep_anchor, unitTrailStep_maxDistance]
  split_ifs with hb hanch
  · exact ⟨rfl, rfl⟩
  · exact ⟨rfl, rfl⟩
  · exact absurd (by
      rw [unitAnchorStep_exceeded _ _ a (by simpa using houtside)
        (by simpa using hanchor) (by simpa using hexceed)]) hanch

/-- A heavy unit that has wandered 5.45 cells past its exit anchor. -/
def unitW : Unit :=
  { Unit.make 5 5 0 "c" 1 0 .heavy 1 .early with
      leftTerritoryPosition := some ⟨0, 0⟩ }

/-- Witness for C6: the wandering unit is deactivated on this tick. -/
theorem unit_excursion_bound_witness :
    (unitUpdate [] [] 10 [] [] unitW).1.active = false ∧
    (unitUpdate [] [] 10 [] [] unitW).2.2 = false :=
  unit_excursion_bound [] [] 10 [] [] unitW ⟨0, 0⟩
    (by with_unfolding_all decide) (by with_unfolding_all decide)
    (by with_unfolding_all decide) (by with_unfolding_all decide)

/-!  Lemmas about `checkSurvival`. -/

/-- The weighted sums satisfy `0 ≤ weightedControl ≤ totalWeight`. -/
lemma weightedControlData_bounds (grid : Grid) (dist : ℤ → ℤ → ℚ)
    (p : PlayerConfig) :
    0 ≤ (weightedControlData grid dist p).2 ∧
    (weightedControlData grid dist p).2 ≤ (weightedControlData grid dist p).1 := by
  unfold weightedControlData
  apply foldl_preserve (fun acc : ℚ × ℚ => 0 ≤ acc.2 ∧ acc.2 ≤ acc.1)
  · intro acc y hacc
    apply foldl_preserve (fun acc : ℚ × ℚ => 0 ≤ acc.2 ∧ acc.2 ≤ acc.1)
    · intro acc x hacc
      dsimp only
      split_ifs with h1 h2
      · have hw : (0 : ℚ) ≤ max 1 ((((p.baseRadius * 2 / 3).floor : ℤ) : ℚ) - dist x y) * 2 := by
          positivity
        constructor
        · exact add_nonneg hacc.1 (le_trans zero_le_one (le_max_left _ _))
        · exact add_le_add_right hacc.2 _
      · constructor
        · exact hacc.1
        · exact le_trans hacc.2
            (le_add_of_nonneg_right (le_trans zero_le_one (le_max_left _ _)))
      · exact hacc
    · exact hacc
  · exact ⟨le_refl 0, le_refl 0⟩

/-- C5 core: the weighted production-area control ratio lies in `[0, 1]`
for every grid, distance oracle and player. -/
lemma weightedControlRatio_bounds (grid : Grid) (dist : ℤ → ℤ → ℚ)
    (p : PlayerConfig) :
    0 ≤ weightedControlRatio grid dist p ∧
    weightedControlRatio grid dist p ≤ 1 := by
  unfold weightedControlRatio
  obtain ⟨h0, hle⟩ := weightedControlData_bounds grid dist p
  dsimp only
  split_ifs with h
  · exact ⟨div_nonneg h0 (le_of_lt h), (div_le_one h).mpr hle⟩
  · exact ⟨le_refl 0, zero_le_one⟩

/-- `survivalStep` leaves a dead player untouched and otherwise applies
`survivalStepPlayer`; its processed-players component appends exactly
that. -/
lemma survivalStep_players (grid : Grid) (dist : ℤ → ℤ → ℚ)
    (acc : List PlayerConfig × List (ℕ × BallState) × ℕ × ℤ)
    (p : PlayerConfig) :
    (survivalStep grid dist acc p).1 =
      acc.1 ++ [survivalStepPlayer grid dist p] := by
  unfold survivalStep survivalStepPlayer
  by_cases hp : p.isAlive
  · simp only [hp, not_true_eq_false, if_false, Bool.not_eq_true]
    split_ifs <;> simp_all
  · simp [hp]

/-- The processed players of the forEach are the pointwise map of
`survivalStepPlayer`. -/
lemma survivalFold_players_aux (grid : Grid) (dist : ℤ → ℤ → ℚ)
    (players : List PlayerConfig)
    (acc : List PlayerConfig × List (ℕ × BallState) × ℕ × ℤ) :
    (players.foldl (survivalStep grid dist) acc).1 =
      acc.1 ++ players.map (survivalStepPlayer grid dist) := by
  induction players generalizing acc with
  | nil => simp
  | cons p ps ih =>
    rw [List.foldl_cons, ih]
    rw [survivalStep_players]
    simp

/-- `survivalFold` processes the players pointwise. -/
lemma survivalFold_players (grid : Grid) (dist : ℤ → ℤ → ℚ)
    (players : List PlayerConfig) (balls : List (ℕ × BallState)) :
    (survivalFold grid dist players balls).1 =
      players.map (survivalStepPlayer grid dist) := by
  unfold survivalFold
  rw [survivalFold_players_aux]
  rfl

/-- Each forEach iteration only removes ball entries. -/
lemma survivalStep_balls_subset (grid : Grid) (dist : ℤ → ℤ → ℚ)
    (acc : List PlayerConfig × List (ℕ × BallState) × ℕ × ℤ)
    (p : PlayerConfig) (e : ℕ × BallState)
    (he : e ∈ (survivalStep grid dist acc p).2.1) : e ∈ acc.2.1 := by
  unfold survivalStep at he
  by_cases hp : p.isAlive
  · simp only [hp, not_true_eq_false, if_false] at he
    split_ifs at he <;> simp_all <;> exact (List.mem_filter.mp he).1
  · simpa [hp] using he

/-- The forEach only removes ball entries. -/
lemma survivalFold_balls_subset (grid : Grid) (dist : ℤ → ℤ → ℚ)
    (players : List PlayerConfig)
    (acc : List PlayerConfig × List (ℕ × BallState) × ℕ × ℤ)
    (e : ℕ × BallState)
    (he : e ∈ (players.foldl (survivalStep grid dist) acc).2.1) :
    e ∈ acc.2.1 := by
  induction players generalizing acc with
  | nil => exact he
  | cons p ps ih =>
    rw [List.foldl_cons] at he
    exact survivalStep_balls_subset grid dist acc p e (ih _ he)

/-- Eliminating a player removes every ball entry with their id at that
iteration. -/
lemma survivalStep_elim_balls (grid : Grid) (dist : ℤ → ℤ → ℚ)
    (acc : List PlayerConfig × List (ℕ × BallState) × ℕ × ℤ)
    (p : PlayerConfig) (halive : p.isAlive = true)
    (hratio : weightedControlRatio grid dist p < 1/10)
    (e : ℕ × BallState) (he : e ∈ (survivalStep grid dist acc p).2.1) :
    e.1 ≠ p.id := by
  unfold survivalStep at he
  simp only [halive, not_true_eq_false, if_false, if_pos hratio] at he
  split_ifs at he <;>
    (simp only [List.mem_filter, decide_eq_true_eq] at he; exact he.2)

/-- After the forEach, an eliminated player's id is absent from the ball
map. -/
lemma survivalFold_elim_balls (grid : Grid) (dist : ℤ → ℤ → ℚ)
    (l₁ l₂ : List PlayerConfig) (p : PlayerConfig)
    (balls : List (ℕ × BallState)) (halive : p.isAlive = true)
    (hratio : weightedControlRatio grid dist p < 1/10)
    (e : ℕ × BallState)
    (he : e ∈ (survivalFold grid dist (l₁ ++ p :: l₂) balls).2.1) :
    e.1 ≠ p.id := by
  unfold survivalFold at he
  rw [List.foldl_append, List.foldl_cons] at he
  exact survivalStep_elim_balls grid dist _ p halive hratio e
    (survivalFold_balls_subset grid dist l₂ _ e he)

/-- `survivalStepPlayer` preserves the player id. -/
@[simp] lemma survivalStepPlayer_id (grid : Grid) (dist : ℤ → ℤ → ℚ)
    (p : PlayerConfig) : (survivalStepPlayer grid dist p).id = p.id := by
  unfold survivalStepPlayer
  dsimp only
  split_ifs <;> rfl

/-- An alive-on-entry player that falls below the elimination floor comes
out dead. -/
lemma survivalStepPlayer_elim (grid : Grid) (dist : ℤ → ℤ → ℚ)
    (p : PlayerConfig) (halive : p.isAlive = true)
    (hratio : weightedControlRatio grid dist p < 1/10) :
    (survivalStepPlayer grid dist p).isAlive = false := by
  unfold survivalStepPlayer
  simp only [halive, not_true_eq_false, if_false]
  rw [if_pos hratio]

/-- The fold's `aliveCount` counts the players that are alive after their
own processing. -/
lemma survivalFold_aliveCount_aux (grid : Grid) (dist : ℤ → ℤ → ℚ)
    (players : List PlayerConfig)
    (acc : List PlayerConfig × List (ℕ × BallState) × ℕ × ℤ) :
    (players.foldl (survivalStep grid dist) acc).2.2.1 =
      acc.2.2.1 + ((players.map (survivalStepPlayer grid dist)).filter
        (fun q => q.isAlive)).length := by
  induction players generalizing acc with
  | nil => simp
  | cons p ps ih =>
    rw [List.foldl_cons, ih]
    have hstep : (survivalStep grid dist acc p).2.2.1 =
        acc.2.2.1 + (if (survivalStepPlayer grid dist p).isAlive then 1 else 0) := by
      unfold survivalStep survivalStepPlayer
      by_cases hp : p.isAlive
      · simp only [hp, not_true_eq_false, if_false, Bool.not_eq_true]
        split_ifs <;> simp_all
      · simp [hp]
    rw [hstep]
    by_cases ha : (survivalStepPlayer grid dist p).isAlive <;>
      simp [ha] <;> omega

/-- If none of the processed players in a suffix is alive, `lastAliveId`
is untouched by that suffix. -/
lemma survivalFold_last_none (grid : Grid) (dist : ℤ → ℤ → ℚ)
    (players : List PlayerConfig)
    (acc : List PlayerConfig × List (ℕ × BallState) × ℕ × ℤ)
    (hnone : ∀ q ∈ players.map (survivalStepPlayer grid dist),
      q.isAlive = false) :
    (players.foldl (survivalStep grid dist) acc).2.2.2 = acc.2.2.2 := by
  induction players generalizing acc with
  | nil => rfl
  | cons p ps ih =>
    have hp' : (survivalStepPlayer grid dist p).isAlive = false :=
      hnone (survivalStepPlayer grid dist p) (by simp)
    have hrest : ∀ q ∈ ps.map (survivalStepPlayer grid dist),
        q.isAlive = false := by
      intro q hq
      refine hnone q ?_
      simp only [List.map_cons, List.mem_cons]
      exact Or.inr hq
    rw [List.foldl_cons, ih _ hrest]
    unfold survivalStep
    unfold survivalStepPlayer at hp'
    by_cases hp : p.isAlive
    · simp only [hp, not_true_eq_false, if_false, Bool.not_eq_true] at hp' ⊢
      split_ifs at hp' ⊢ <;> simp_all
    · simp [hp]

/-- If exactly one processed player is alive, `lastAliveId` is that
player's id. -/
lemma survivalFold_last_unique (grid : Grid) (dist : ℤ → ℤ → ℚ)
    (players : List PlayerConfig)
    (acc : List PlayerConfig × List (ℕ × BallState) × ℕ × ℤ)
    (q : PlayerConfig)
    (hq : q ∈ players.map (survivalStepPlayer grid dist))
    (hqa : q.isAlive = true)
    (hone : ((players.map (survivalStepPlayer grid dist)).filter
      (fun r => r.isAlive)).length = 1) :
    (players.foldl (survivalStep grid dist) acc).2.2.2 = (q.id : ℤ) := by
  induction players generalizing acc with
  | nil => simp at hq
  | cons p ps ih =>
    have hq' : q ∈ (survivalStepPlayer grid dist p) ::
        ps.map (survivalStepPlayer grid dist) := by simpa using hq
    by_cases hpa : (survivalStepPlayer grid dist p).isAlive
    · -- the head is the unique alive player
      have hzero : ((ps.map (survivalStepPlayer grid dist)).filter
          (fun r => r.isAlive)).length = 0 := by
        simp only [List.map_cons, List.filter_cons, hpa] at hone
        simpa using hone
      have hnone : ∀ r ∈ ps.map (survivalStepPlayer grid dist),
          r.isAlive = false := by
        intro r hr
        by_contra hcon
        have : r ∈ (ps.map (survivalStepPlayer grid dist)).filter
            (fun r => r.isAlive) := by
          simp [List.mem_filter, hr, Bool.ne_false_iff.mp hcon]
        rw [List.length_eq_zero] at hzero
        simp [hzero] at this
      have hqp : q = survivalStepPlayer grid dist p := by
        rcases List.mem_cons.mp hq' with h | h
        · exact h
        · exact absurd hqa (by simp [hnone q h])
      rw [List.foldl_cons, survivalFold_last_none grid dist ps _ hnone]
      subst hqp
      unfold survivalStep
      unfold survivalStepPlayer at hpa hqa ⊢
      by_cases hp : p.isAlive
      · simp only [hp, not_true_eq_false, if_false, Bool.not_eq_true] at hpa ⊢
        split_ifs at hpa ⊢ <;> simp_all
      · simp_all
    · -- the head is dead after processing; recurse
      have hone' : ((ps.map (survivalStepPlayer grid dist)).filter
          (fun r => r.isAlive)).length = 1 := by
        simp only [List.map_cons, List.filter_cons, hpa] at hone
        simpa using hone
      have hqps : q ∈ ps.map (survivalStepPlayer grid dist) := by
        rcases List.mem_cons.mp hq' with h | h
        · exact absurd hqa (by simp [h ▸ hpa])
        · exact h
      rw [List.foldl_cons]
      exact ih _ hqps hone'

/-- `getD` through `map` at an in-range index. -/
lemma getD_map {α β : Type} (f : α → β) (l : List α) (i : ℕ)
    (hi : i < l.length) (d : β) (d' : α) :
    (l.map f).getD i d = f (l.getD i d') := by
  rw [List.getD_eq_getElem?_getD, List.getD_eq_getElem?_getD,
    List.getElem?_map, List.getElem?_eq_getElem hi]
  rfl

/-- The players of `checkSurvival` are the fold's processed players. -/
lemma checkSurvival_players (dist : ℤ → ℤ → ℚ) (s : EngineState) :
    (checkSurvival dist s).players =
      (survivalFold s.grid dist s.players s.balls).1 := rfl

/-- The ball map of `checkSurvival` is the fold's ball map. -/
lemma checkSurvival_balls (dist : ℤ → ℤ → ℚ) (s : EngineState) :
    (checkSurvival dist s).balls =
      (survivalFold s.grid dist s.players s.balls).2.1 := rfl

/-- Splitting the player list at an index. -/
lemma players_split (l : List PlayerConfig) (i : ℕ) (hi : i < l.length) :
    l = l.take i ++ (l.getD i default) :: l.drop (i + 1) := by
  conv_lhs => rw [← List.take_append_drop i l]
  congr 1
  rw [List.drop_eq_getElem_cons hi]
  congr 1
  rw [List.getD_eq_getElem?_getD, List.getElem?_eq_getElem hi]
  rfl

/-- C3 — elimination correctness: a player that is alive on entry to
`checkSurvival` and whose distance-weighted production-area control ratio
is below the 0.1 floor is marked not-alive, and the live ball map
contains no entry for their id. -/
theorem elimination_correct (dist : ℤ → ℤ → ℚ) (s : EngineState) (i : ℕ)
    (hi : i < s.players.length)
    (halive : (s.players.getD i default).isAlive = true)
    (hratio : weightedControlRatio s.grid dist (s.players.getD i default)
      < 1/10) :
    ((checkSurvival dist s).players.getD i default).isAlive = false ∧
    ∀ e ∈ (checkSurvival dist s).balls,
      e.1 ≠ (s.players.getD i default).id := by
  constructor
  · rw [checkSurvival_players, survivalFold_players,
      getD_map _ _ i hi default default]
    exact survivalStepPlayer_elim s.grid dist _ halive hratio
  · intro e he
    rw [checkSurvival_balls] at he
    rw [show s.players = s.players.take i ++
        (s.players.getD i default) :: s.players.drop (i + 1) from
      players_split s.players i hi] at he
    exact survivalFold_elim_balls s.grid dist _ _ _ s.balls halive hratio e he

/-- The concrete player used by the witnesses: alive, base at the map
center. -/
def playerW : PlayerConfig :=
  { id := 0, color := "c", basePosition := ⟨1/2, 1/2⟩, isAlive := true
    coreHp := 500, armyPower := 0, baseRadius := 8 }

/-- The all-zero distance oracle used by the witnesses. -/
def distZero : ℤ → ℤ → ℚ := fun _ _ => 0

/-- A one-player state on the all-neutral grid. -/
def engineW : EngineState :=
  { initialEngine with
      players := [playerW]
      balls := [(0, BallState.make 50 0 "c" 0 0)]
      territoryCounts := [100]
      scores := [0]
      spawnAngles := [0] }

set_option maxRecDepth 40000 in
/-- Witness for C3: on the all-neutral grid the player's weighted ratio
is 0, so `checkSurvival` eliminates them and drops their ball. -/
theorem elimination_correct_witness :
    ((checkSurvival distZero engineW).players.getD 0 default).isAlive = false ∧
    ∀ e ∈ (checkSurvival distZero engineW).balls,
      e.1 ≠ (engineW.players.getD 0 default).id :=
  elimination_correct distZero engineW 0 (by with_unfolding_all decide)
    (by with_unfolding_all decide) (by with_unfolding_all decide)

/-- `survivalStepPlayer` writes `ratio * 500` into an alive player's
`coreHp` and leaves a dead player's untouched. -/
lemma survivalStepPlayer_coreHp (grid : Grid) (dist : ℤ → ℤ → ℚ)
    (p : PlayerConfig) :
    (survivalStepPlayer grid dist p).coreHp =
      if p.isAlive then weightedControlRatio grid dist p * 500
      else p.coreHp := by
  unfold survivalStepPlayer
  by_cases hp : p.isAlive
  · simp only [hp, not_true_eq_false, if_false, if_true]
    split_ifs <;> rfl
  · simp [hp]

/-- Every player record `setup` creates starts at `coreHp = 500`. -/
lemma setup_players_coreHp (s : EngineState) (n : ℕ) (o : SetupOracle) :
    ∀ p ∈ (setup s n o).players, p.coreHp = 500 := by
  unfold setup
  dsimp only
  apply foldl_preserve
    (fun acc : List PlayerConfig × Grid × List (ℕ × BallState) =>
      ∀ p ∈ acc.1, p.coreHp = 500)
  · intro acc i hacc
    intro p hp
    dsimp only at hp
    rcases List.mem_append.mp hp with h | h
    · exact hacc p h
    · rw [List.mem_singleton.mp h]
  · intro p hp
    simp at hp

/-- C5 — core HP clamp: the weighted production-area control ratio
always lies in `[0, 1]`, so `checkSurvival`'s assignment
`coreHp = ratio × 500` keeps every player's `coreHp` inside `[0, 500]`
whenever it was inside before the call, and `setup` initializes every
`coreHp` to 500. -/
theorem core_hp_clamp :
    (∀ (grid : Grid) (dist : ℤ → ℤ → ℚ) (p : PlayerConfig),
      0 ≤ weightedControlRatio grid dist p ∧
        weightedControlRatio grid dist p ≤ 1) ∧
    (∀ (dist : ℤ → ℤ → ℚ) (s : EngineState),
      (∀ p ∈ s.players, 0 ≤ p.coreHp ∧ p.coreHp ≤ 500) →
      ∀ p ∈ (checkSurvival dist s).players,
        0 ≤ p.coreHp ∧ p.coreHp ≤ 500) ∧
    (∀ (s : EngineState) (n : ℕ) (o : SetupOracle),
      ∀ p ∈ (setup s n o).players, p.coreHp = 500) := by
  refine ⟨weightedControlRatio_bounds, ?_, setup_players_coreHp⟩
  intro dist s hs p' hp'
  rw [checkSurvival_players, survivalFold_players] at hp'
  obtain ⟨p, hp, rfl⟩ := List.mem_map.mp hp'
  rw [survivalStepPlayer_coreHp]
  by_cases hpa : p.isAlive
  · rw [if_pos hpa]
    obtain ⟨h0, h1⟩ := weightedControlRatio_bounds s.grid dist p
    constructor
    · positivity
    · nlinarith
  · rw [if_neg hpa]
    exact hs p hp

set_option maxRecDepth 40000 in
/-- Witness for C5: the surviving concrete one-player state keeps its
core HP inside the clamp. -/
theorem core_hp_clamp_witness :
    0 ≤ ((checkSurvival distZero engineW).players.getD 0 default).coreHp ∧
    ((checkSurvival distZero engineW).players.getD 0 default).coreHp ≤ 500 :=
  core_hp_clamp.2.1 distZero engineW (by with_unfolding_all decide)
    ((checkSurvival distZero engineW).players.getD 0 default)
    (by with_unfolding_all decide)

/-- `getD` at an in-range index is a member. -/
lemma getD_mem {α : Type} (l : List α) (i : ℕ) (hi : i < l.length) (d : α) :
    l.getD i d ∈ l := by
  rw [List.getD_eq_getElem?_getD, List.getElem?_eq_getElem hi]
  exact List.getElem_mem hi

/-- C4 — win uniqueness: when `checkSurvival` leaves exactly one player
alive, `winner` is that player's id; when two or more remain alive and no
living player's `territoryCounts` entry has reached the full grid area,
`winner` keeps its prior value.  Player ids are assumed to equal their
indices, as `setup` creates them. -/
theorem win_uniqueness (dist : ℤ → ℤ → ℚ) (s : EngineState)
    (hid : ∀ i, i < s.players.length → (s.players.getD i default).id = i) :
    ((((checkSurvival dist s).players.filter (fun p => p.isAlive)).length = 1 →
      ∀ q ∈ (checkSurvival dist s).players, q.isAlive = true →
        (checkSurvival dist s).winner = some (q.id : ℤ)) ∧
    (2 ≤ (((checkSurvival dist s).players.filter (fun p => p.isAlive)).length) →
      (∀ i, i < (checkSurvival dist s).players.length →
        ((checkSurvival dist s).players.getD i default).isAlive = true →
        s.territoryCounts.getD i 0 < MAP_GRID_SIZE * MAP_GRID_SIZE) →
      (checkSurvival dist s).winner = s.winner)) := by
  constructor
  · intro hcount q hq hqa
    have hcount' : ((s.players.map (survivalStepPlayer s.grid dist)).filter
        (fun p => p.isAlive)).length = 1 := by
      rw [checkSurvival_players, survivalFold_players] at hcount
      exact hcount
    have hq' : q ∈ s.players.map (survivalStepPlayer s.grid dist) := by
      rw [checkSurvival_players, survivalFold_players] at hq
      exact hq
    have haliveCount :
        (survivalFold s.grid dist s.players s.balls).2.2.1 = 1 := by
      unfold survivalFold
      rw [survivalFold_aliveCount_aux]
      simpa using hcount'
    have hlast :
        (survivalFold s.grid dist s.players s.balls).2.2.2 = (q.id : ℤ) :=
      survivalFold_last_unique s.grid dist s.players _ q hq' hqa hcount'
    have huniq : ∀ r ∈ s.players.map (survivalStepPlayer s.grid dist),
        r.isAlive = true → r = q := by
      obtain ⟨a, ha⟩ := List.length_eq_one.mp hcount'
      intro r hr hra
      have hrf : r ∈ (s.players.map (survivalStepPlayer s.grid dist)).filter
          (fun p => p.isAlive) := List.mem_filter.mpr ⟨hr, by simp [hra]⟩
      have hqf : q ∈ (s.players.map (survivalStepPlayer s.grid dist)).filter
          (fun p => p.isAlive) := List.mem_filter.mpr ⟨hq', by simp [hqa]⟩
      rw [ha, List.mem_singleton] at hrf hqf
      rw [hrf, hqf]
    show (checkSurvival dist s).winner = _
    unfold checkSurvival
    dsimp only
    split
    next j hfind =>
      have hj := List.find?_some hfind
      have hjmem := List.mem_of_find?_eq_some hfind
      rw [List.mem_range] at hjmem
      simp only [decide_eq_true_eq] at hj
      have hjlen : j < s.players.length := by
        rw [survivalFold_players, List.length_map] at hjmem
        exact hjmem
      have hjq : (survivalFold s.grid dist s.players s.balls).1.getD j default
          = q := by
        apply huniq
        · rw [← survivalFold_players]
          exact getD_mem _ j hjmem default
        · exact hj.1
      have hidj : ((survivalFold s.grid dist s.players s.balls).1.getD
          j default).id = j := by
        rw [survivalFold_players, getD_map _ _ j hjlen default default,
          survivalStepPlayer_id]
        exact hid j hjlen
      rw [← hjq, hidj]
    next hfind =>
      rw [if_pos haliveCount, hlast]
  · intro hcount2 hterr
    show (checkSurvival dist s).winner = _
    unfold checkSurvival
    dsimp only
    split
    next j hfind =>
      exfalso
      have hj := List.find?_some hfind
      have hjmem := List.mem_of_find?_eq_some hfind
      rw [List.mem_range] at hjmem
      simp only [decide_eq_true_eq] at hj
      have hlt := hterr j (by rw [checkSurvival_players]; exact hjmem)
        (by rw [checkSurvival_players]; exact hj.1)
      exact absurd hj.2 (not_le.mpr hlt)
    next hfind =>
      have haliveCount :
          (survivalFold s.grid dist s.players s.balls).2.2.1 =
            (((checkSurvival dist s).players.filter
              (fun p => p.isAlive)).length) := by
        unfold survivalFold
        rw [survivalFold_aliveCount_aux]
        rw [checkSurvival_players, survivalFold_players]
        simp
      rw [if_neg (by omega)]

/-- A two-player state on a grid fully owned by player 0: `checkSurvival`
keeps player 0 (full production-area control) and eliminates player 1. -/
def engineW2 : EngineState :=
  { initialEngine with
      players := [playerW, { playerW with id := 1 }]
      grid := List.replicate MAP_GRID_SIZE (List.replicate MAP_GRID_SIZE (0 : ℤ))
      balls := [(0, BallState.make 50 0 "c" 0 0), (1, BallState.make 50 0 "c" 0 0)]
      territoryCounts := [100, 100]
      scores := [0, 0]
      spawnAngles := [0, 0] }

set_option maxRecDepth 40000 in
/-- Witness for C4: exactly one player survives and `winner` is their id. -/
theorem win_uniqueness_witness :
    (checkSurvival distZero engineW2).winner =
      some (((checkSurvival distZero engineW2).players.getD 0 default).id : ℤ) :=
  (win_uniqueness distZero engineW2 (by with_unfolding_all decide)).1
    (by with_unfolding_all decide)
    ((checkSurvival distZero engineW2).players.getD 0 default)
    (by with_unfolding_all decide) (by with_unfolding_all decide)

/-!  Lemmas for territory conservation. -/

/-- Every cell holds exactly one owner: neutral or one of the `P`
players. -/
def wellOwned (P : ℕ) (grid : Grid) : Prop :=
  ∀ y : ℕ, y < MAP_GRID_SIZE → ∀ x : ℕ, x < MAP_GRID_SIZE →
    cellAt grid (y : ℤ) (x : ℤ) = -1 ∨
    (0 ≤ cellAt grid (y : ℤ) (x : ℤ) ∧
      cellAt grid (y : ℤ) (x : ℤ) < (P : ℤ))

/-- A cell after `set2d` is either the written value or the old cell. -/
lemma cellAt_set2d_cases (g : Grid) (y x v Y X : ℤ) :
    cellAt (set2d g y x v) Y X = v ∨
    cellAt (set2d g y x v) Y X = cellAt g Y X := by
  unfold cellAt set2d
  rw [getD_set]
  split_ifs with h
  · rw [getD_set]
    split_ifs with h2
    · exact Or.inl rfl
    · exact Or.inr (by rw [h.1])
  · exact Or.inr rfl

/-- A fold that preserves an invariant, when the step may use membership
of the element in the list. -/
lemma foldl_preserve_mem {α β : Type} (P : α → Prop) (f : α → β → α)
    (l : List β) (a : α)
    (hstep : ∀ a b, b ∈ l → P a → P (f a b)) (ha : P a) :
    P (l.foldl f a) := by
  induction l generalizing a with
  | nil => exact ha
  | cons b l ih =>
    exact ih _ (fun a' b' hb' => hstep a' b' (List.mem_cons_of_mem _ hb'))
      (hstep a b (List.mem_cons_self b l) ha)

/-- `paintArea` preserves well-ownedness for a valid painter id. -/
lemma paintArea_wellOwned (P : ℕ) (grid : Grid) (gs : ℕ) (cx cy : ℤ)
    (pid : ℕ) (r : ℚ) (hw : wellOwned P grid) (hpid : pid < P) :
    wellOwned P (paintArea grid gs cx cy pid r).1 := by
  unfold paintArea
  apply foldl_preserve (fun acc : Grid × ℕ => wellOwned P acc.1)
  · intro acc y hacc
    apply foldl_preserve (fun acc : Grid × ℕ => wellOwned P acc.1)
    · intro acc x hacc
      dsimp only
      split_ifs with h1 h2 h3
      · intro Y hY X hX
        rcases cellAt_set2d_cases acc.1 (cy + y) (cx + x) (pid : ℤ)
            (Y : ℤ) (X : ℤ) with hc | hc
        · rw [hc]
          exact Or.inr ⟨by positivity, by exact_mod_cast hpid⟩
        · rw [hc]
          exact hacc Y hY X hX
      · exact hacc
      · exact hacc
      · exact hacc
    · exact hacc
  · exact hw

/-- `initializeTerritory` preserves well-ownedness for a valid player. -/
lemma initializeTerritory_wellOwned (P : ℕ) (grid : Grid) (pid : ℕ)
    (pos : Point) (hw : wellOwned P grid) (hpid : pid < P) :
    wellOwned P (initializeTerritory grid pid pos) := by
  unfold initializeTerritory
  apply foldl_preserve (wellOwned P)
  · intro g y hg
    apply foldl_preserve (wellOwned P)
    · intro g x hg
      dsimp only
      split_ifs with h1 h2
      · intro Y hY X hX
        rcases cellAt_set2d_cases g _ _ (pid : ℤ) (Y : ℤ) (X : ℤ) with hc | hc
        · rw [hc]
          exact Or.inr ⟨by positivity, by exact_mod_cast hpid⟩
        · rw [hc]
          exact hg Y hY X hX
      · exact hg
      · exact hg
    · exact hg
  · exact hw

/-- The fresh grid is well-owned for any player count. -/
lemma wellOwned_initGridTerritory (P : ℕ) : wellOwned P initGridTerritory := by
  intro y hy x hx
  exact Or.inl (cellAt_initGridTerritory _ _)

/-- The grid `setup` builds is well-owned for its player count. -/
lemma setup_wellOwned (s : EngineState) (n : ℕ) (o : SetupOracle) :
    wellOwned n (setup s n o).grid := by
  unfold setup
  dsimp only
  apply foldl_preserve_mem
    (fun acc : List PlayerConfig × Grid × List (ℕ × BallState) =>
      wellOwned n acc.2.1)
  · intro acc i hi hacc
    dsimp only
    apply initializeTerritory_wellOwned
    · exact hacc
    · exact List.mem_range.mp hi
  · exact wellOwned_initGridTerritory n

/-- The capture step returns `paintArea`'s grid, so it preserves
well-ownedness. -/
lemma unitCaptureStep_wellOwned (P : ℕ) (grid : Grid) (gs : ℕ)
    (players : List PlayerConfig) (terrain : TerrainCell)
    (owner gx gy : ℤ) (rm tb dm : ℚ) (u : Unit) (hw : wellOwned P grid)
    (hpid : u.playerId < P) :
    wellOwned P (unitCaptureStep grid gs players terrain owner gx gy
      rm tb dm u).2 := by
  unfold unitCaptureStep
  dsimp only
  split_ifs <;> exact paintArea_wellOwned P grid gs gx gy u.playerId
    u.captureRadius hw hpid

/-- The bounce block does not change the unit's identity fields. -/
@[simp] lemma unitBounceStep_playerId (gs : ℕ) (u : Unit) :
    (unitBounceStep gs u).playerId = u.playerId := by
  unfold unitBounceStep
  dsimp only
  split_ifs <;> rfl

/-- The terrain block does not change the unit's identity fields. -/
@[simp] lemma unitTerrainStep_playerId (t : TerrainCell) (u : Unit) :
    (unitTerrainStep t u).1.playerId = u.playerId := by
  unfold unitTerrainStep
  split_ifs <;> rfl

/-- The type-bonus loop does not change the unit's identity fields. -/
@[simp] lemma unitTypeBonus_playerId (u : Unit) (l : List Unit) :
    (unitTypeBonus u l).2.playerId = u.playerId := by
  induction l with
  | nil => rfl
  | cons e l ih =>
    unfold unitTypeBonus
    split_ifs <;> first | rfl | exact ih

/-- The combat phase mutates the grid only through the capture step. -/
lemma unitCombatPhase_wellOwned (P : ℕ) (grid : Grid)
    (tg : List (List TerrainCell)) (gs : ℕ) (players : List PlayerConfig)
    (allUnits : List Unit) (gx gy owner : ℤ) (u : Unit)
    (hw : wellOwned P grid) (hpid : u.playerId < P) :
    wellOwned P (unitCombatPhase grid tg gs players allUnits
      gx gy owner u).2.1 := by
  unfold unitCombatPhase
  dsimp only
  split_ifs <;> first
    | exact hw
    | · apply unitCaptureStep_wellOwned
        · exact hw
        · simpa using hpid

/-- The anchor block does not change the unit's identity fields. -/
@[simp] lemma unitAnchorStep_playerId (u : Unit) (owner : ℤ) :
    (unitAnchorStep u owner).1.playerId = u.playerId := by
  cases hl : u.leftTerritoryPosition with
  | none =>
    simp only [unitAnchorStep, hl]
    split_ifs <;> rfl
  | some a =>
    simp only [unitAnchorStep, hl]
    split_ifs <;> rfl

/-- `Unit.update` mutates the grid only through `paintArea`, so it
preserves well-ownedness. -/
lemma unitUpdate_wellOwned (P : ℕ) (grid : Grid)
    (tg : List (List TerrainCell)) (gs : ℕ) (players : List PlayerConfig)
    (allUnits : List Unit) (u : Unit) (hw : wellOwned P grid)
    (hpid : u.playerId < P) :
    wellOwned P (unitUpdate grid tg gs players allUnits u).2.1 := by
  unfold unitUpdate
  dsimp only
  split_ifs <;> first
    | exact hw
    | · apply unitCombatPhase_wellOwned
        · exact hw
        · simpa using hpid

/-- Folding over a flattened list is the nested fold. -/
lemma foldl_flatMap {α β γ : Type} (f : γ → α → γ) (g : β → List α)
    (l : List β) (a : γ) :
    (l.flatMap g).foldl f a = l.foldl (fun a x => (g x).foldl f a) a := by
  induction l generalizing a with
  | nil => rfl
  | cons b l ih =>
    rw [List.flatMap_cons, List.foldl_append, List.foldl_cons, ih]

/-- The per-owner tally increment of `recomputeCounts`. -/
def countsInc (counts : List ℕ) (owner : ℤ) : List ℕ :=
  if owner ≠ -1 then counts.set owner.toNat (counts.getD owner.toNat 0 + 1)
  else counts

/-- `recomputeCounts` is the cell-by-cell fold of the tally increment. -/
lemma recomputeCounts_eq (grid : Grid) (P : ℕ) :
    recomputeCounts grid P =
      (gridCellsList grid).foldl countsInc (List.replicate P 0) := by
  show recomputeCounts grid P =
    ((List.range MAP_GRID_SIZE).flatMap (fun (y : ℕ) =>
      (List.range MAP_GRID_SIZE).map (fun (x : ℕ) =>
        cellAt grid (y : ℤ) (x : ℤ)))).foldl countsInc (List.replicate P 0)
  rw [foldl_flatMap]
  unfold recomputeCounts
  refine List.foldl_ext _ _ _ fun counts y _ => ?_
  rw [List.foldl_map]
  rfl

/-- Incrementing one in-range entry adds one to the sum. -/
lemma sum_set_succ (l : List ℕ) (i : ℕ) (hi : i < l.length) :
    (l.set i (l.getD i 0 + 1)).sum = l.sum + 1 := by
  induction l generalizing i with
  | nil => simp at hi
  | cons a l ih =>
    cases i with
    | zero =>
      simp only [List.getD_cons_zero, List.set_cons_zero, List.sum_cons]
      omega
    | succ i =>
      have hi' : i < l.length := by simpa using hi
      simp only [List.getD_cons_succ, List.set_cons_succ, List.sum_cons]
      rw [ih i hi']
      omega

/-- The tally fold adds one per non-neutral cell; together with the
neutral count it accounts for every processed cell. -/
lemma sum_foldl_countsInc (L : List ℤ) (counts : List ℕ) (P : ℕ)
    (hlen : counts.length = P)
    (hL : ∀ v ∈ L, v = -1 ∨ (0 ≤ v ∧ v < (P : ℤ))) :
    (L.foldl countsInc counts).sum + L.count (-1) =
      counts.sum + L.length := by
  induction L generalizing counts with
  | nil => simp
  | cons v L ih =>
    rw [List.foldl_cons]
    rcases hL v (List.mem_cons_self v L) with hv | hv
    · subst hv
      have hstep : countsInc counts (-1) = counts := by simp [countsInc]
      rw [hstep, List.count_cons_self, List.length_cons]
      have := ih counts hlen (fun w hw => hL w (List.mem_cons_of_mem _ hw))
      omega
    · have hne : v ≠ -1 := by omega
      have hstep : countsInc counts v =
          counts.set v.toNat (counts.getD v.toNat 0 + 1) := by
        simp [countsInc, hne]
      have hlt : v.toNat < counts.length := by omega
      have hsum := sum_set_succ counts v.toNat hlt
      have hlen' : (counts.set v.toNat (counts.getD v.toNat 0 + 1)).length
          = P := by simpa using hlen
      have := ih _ hlen' (fun w hw => hL w (List.mem_cons_of_mem _ hw))
      rw [hstep, List.count_cons_of_ne (by omega : (-1 : ℤ) ≠ v),
        List.length_cons]
      omega

/-- On a well-owned grid every flattened cell is neutral or a valid
player id. -/
lemma wellOwned_cells (P : ℕ) (grid : Grid) (hw : wellOwned P grid) :
    ∀ v ∈ gridCellsList grid, v = -1 ∨ (0 ≤ v ∧ v < (P : ℤ)) := by
  intro v hv
  unfold gridCellsList at hv
  simp only [List.mem_flatMap, List.mem_map, List.mem_range] at hv
  obtain ⟨y, hy, x, hx, rfl⟩ := hv
  exact hw y hy x hx

/-- The flattened grid has exactly `MAP_GRID_SIZE²` cells. -/
lemma gridCellsList_length (grid : Grid) :
    (gridCellsList grid).length = MAP_GRID_SIZE * MAP_GRID_SIZE := by
  unfold gridCellsList
  rw [List.length_flatMap]
  simp only [Function.comp_def, List.length_map, List.length_range, List.map_const']
  rw [List.sum_replicate, smul_eq_mul]

/-- Territory conservation on a well-owned grid: the per-player tallies
plus the neutral count cover the grid exactly. -/
lemma recomputeCounts_conservation (P : ℕ) (grid : Grid)
    (hw : wellOwned P grid) :
    (recomputeCounts grid P).sum + neutralCount grid =
      MAP_GRID_SIZE * MAP_GRID_SIZE := by
  rw [recomputeCounts_eq]
  unfold neutralCount
  rw [sum_foldl_countsInc (gridCellsList grid) (List.replicate P 0) P
    (by simp) (wellOwned_cells P grid hw)]
  rw [gridCellsList_length]
  simp

/-- C1. Territory conservation: the `setup` grid is well-owned (every
cell is neutral or one of the `n` player ids); `paintArea` and
`Unit.update` preserve well-ownedness when driven by a valid player id
(these are the only grid mutations in the engine); and whenever the
engine recomputes territory counts from a well-owned grid, the sum of
all players' territory counts plus the neutral-cell count is exactly
10000 = 100 × 100. -/
theorem territory_conservation :
    (∀ (s : EngineState) (n : ℕ) (o : SetupOracle),
        wellOwned n (setup s n o).grid) ∧
    (∀ (P : ℕ) (grid : Grid) (gs : ℕ) (cx cy : ℤ) (pid : ℕ) (r : ℚ),
        wellOwned P grid → pid < P →
        wellOwned P (paintArea grid gs cx cy pid r).1) ∧
    (∀ (P : ℕ) (grid : Grid) (tg : List (List TerrainCell)) (gs : ℕ)
        (players : List PlayerConfig) (allUnits : List Unit) (u : Unit),
        wellOwned P grid → u.playerId < P →
        wellOwned P (unitUpdate grid tg gs players allUnits u).2.1) ∧
    (∀ (P : ℕ) (grid : Grid), wellOwned P grid →
        (recomputeCounts grid P).sum + neutralCount grid = 10000) := by
  refine ⟨setup_wellOwned,
    fun P grid gs cx cy pid r hw hpid =>
      paintArea_wellOwned P grid gs cx cy pid r hw hpid,
    fun P grid tg gs players allUnits u hw hpid =>
      unitUpdate_wellOwned P grid tg gs players allUnits u hw hpid,
    fun P grid hw => ?_⟩
  have h := recomputeCounts_conservation P grid hw
  have h2 : MAP_GRID_SIZE * MAP_GRID_SIZE = 10000 := rfl
  rw [h2] at h
  exact h

/-- Witness for C1 at a concrete input: the freshly initialised all-neutral
grid with one player is well-owned, and its recomputed counts plus the
neutral count give exactly 10000. -/
theorem territory_conservation_witness :
    wellOwned 1 initGridTerritory ∧
    (recomputeCounts initGridTerritory 1).sum +
      neutralCount initGridTerritory = 10000 :=
  ⟨wellOwned_initGridTerritory 1,
    territory_conservation.2.2.2 1 initGridTerritory
      (wellOwned_initGridTerritory 1)⟩

/-!  Lemmas for the spawn-wave minimum. -/

/-- With a sub-1 type draw, the loop body always constructs a unit: the
selected type is `"light"` or `"heavy"`, never the dead `"assault"`
fall-through. -/
lemma mkWaveUnit_isSome (o : SpawnOracle) (p : PlayerConfig)
    (phase : GamePhase) (bX bY hpM : ℚ) (isJackpot : Bool) (i : ℕ)
    (ht : o.typeRand i < 1) :
    ∃ u, mkWaveUnit o p phase bX bY hpM (getUnitMix isJackpot) i = some u := by
  unfold mkWaveUnit
  dsimp only
  rcases selectUnitType_mix_mem isJackpot (o.typeRand i) ht with h | h <;>
    rw [h] <;> exact ⟨_, rfl⟩

/-- With sub-1 type draws the spawning loop builds exactly one unit per
index. -/
lemma buildWaveUnits_some (o : SpawnOracle) (p : PlayerConfig)
    (phase : GamePhase) (bX bY hpM : ℚ) (isJackpot : Bool)
    (l : List ℕ) (ht : ∀ i, o.typeRand i < 1) :
    ∃ us, buildWaveUnits o p phase bX bY hpM (getUnitMix isJackpot) l
        = some us ∧ us.length = l.length := by
  induction l with
  | nil => exact ⟨[], rfl, rfl⟩
  | cons i rest ih =>
    obtain ⟨u, hu⟩ := mkWaveUnit_isSome o p phase bX bY hpM isJackpot i (ht i)
    obtain ⟨us, hus, hlen⟩ := ih
    refine ⟨u :: us, ?_, by simp [hlen]⟩
    simp only [buildWaveUnits, hu, hus]

/-- The territory penalty is one of 0.7, 0.8, 0.9, 1, hence nonnegative. -/
lemma spawnPenalty_nonneg (d : ℚ) : 0 ≤ spawnPenalty d := by
  unfold spawnPenalty
  split_ifs <;> norm_num

/-- The reduced catch-up bonus is never negative. -/
lemma spawnCatchUp_nonneg (d : ℚ) : 0 ≤ spawnCatchUp d := by
  unfold spawnCatchUp
  refine Rat.le_floor.mpr ?_
  push_cast
  apply mul_nonneg _ (spawnPenalty_nonneg d)
  split_ifs with h
  · have h0 : (0 : ℤ) ≤ ((20/100 - d) * 5).floor :=
      Rat.le_floor.mpr (by push_cast; linarith)
    exact_mod_cast h0
  · norm_num

/-- Past the dead-player guard, `spawnWave` always succeeds and appends
at least one unit. -/
lemma spawnWaveAlive_appends (o : SpawnOracle) (s : EngineState)
    (playerId : ℕ) (amountBase : ℤ) (isJackpot : Bool) (p : PlayerConfig)
    (ht : ∀ i, o.typeRand i < 1) :
    ∃ s', spawnWaveAlive o s playerId amountBase isJackpot p = some s' ∧
      ∃ newUnits, s'.units = s.units ++ newUnits ∧
        1 ≤ newUnits.length := by
  obtain ⟨us, hus, hlen⟩ := buildWaveUnits_some o p s.gamePhase
    (p.basePosition.x * (MAP_GRID_SIZE : ℚ))
    (p.basePosition.y * (MAP_GRID_SIZE : ℚ))
    (1 + spawnDominance s playerId * (4/10)) isJackpot
    (List.range (spawnFinalAmount (spawnDominance s playerId) amountBase +
      spawnCatchUp (spawnDominance s playerId)).toNat) ht
  refine ⟨{ s with units := s.units ++ us }, ?_, us, rfl, ?_⟩
  · unfold spawnWaveAlive
    dsimp only
    rw [hus]
  · rw [hlen, List.length_range]
    have h1 : 1 ≤ spawnFinalAmount (spawnDominance s playerId) amountBase :=
      le_max_left _ _
    have h2 := spawnCatchUp_nonneg (spawnDominance s playerId)
    omega

/-- C10. Spawn-wave minimum and dead-player guard: for a living player
(and type draws below 1, as `Math.random()` always is), `spawnWave`
succeeds and appends at least one unit to the unit list — the final
amount is clamped to a minimum of 1 — while for a player whose `isAlive`
flag is false it returns the state unchanged with no units appended. -/
theorem spawnWave_minimum :
    (∀ (o : SpawnOracle) (s : EngineState) (playerId : ℕ)
        (amountBase : ℤ) (isJackpot : Bool) (p : PlayerConfig),
        s.players.get? playerId = some p → p.isAlive = true →
        (∀ i, o.typeRand i < 1) →
        ∃ s', spawnWave o s playerId amountBase isJackpot = some s' ∧
          ∃ newUnits, s'.units = s.units ++ newUnits ∧
            1 ≤ newUnits.length) ∧
    (∀ (o : SpawnOracle) (s : EngineState) (playerId : ℕ)
        (amountBase : ℤ) (isJackpot : Bool) (p : PlayerConfig),
        s.players.get? playerId = some p → p.isAlive = false →
        spawnWave o s playerId amountBase isJackpot = some s) := by
  constructor
  · intro o s playerId amountBase isJackpot p hget halive ht
    obtain ⟨s', hs', hrest⟩ :=
      spawnWaveAlive_appends o s playerId amountBase isJackpot p ht
    refine ⟨s', ?_, hrest⟩
    unfold spawnWave
    simp only [hget]
    rw [if_neg (show ¬¬(p.isAlive = true) from fun hc => hc halive)]
    exact hs'
  · intro o s playerId amountBase isJackpot p hget hdead
    unfold spawnWave
    simp only [hget]
    rw [if_pos (show ¬(p.isAlive = true) from by simp [hdead])]

/-- The spawn oracle used by the C10 witness: every type draw is 0. -/
def oW10 : SpawnOracle :=
  ⟨fun _ => 1, fun _ => 0, fun _ => 1/2, fun _ => 1, fun _ => 0,
    fun _ => 0⟩

/-- A one-player engine state for the C10 witness. -/
def engineW10 : EngineState :=
  { initialEngine with
      players := [playerW]
      territoryCounts := [100]
      scores := [0]
      spawnAngles := [0] }

/-- The same player with the alive flag cleared. -/
def playerW10d : PlayerConfig := { playerW with isAlive := false }

/-- The C10 witness state with its only player dead. -/
def engineW10d : EngineState := { engineW10 with players := [playerW10d] }

/-- Witness for C10 at concrete inputs: with `amountBase = 0` the living
player still receives a wave of at least one unit, and the dead player's
call is a no-op. -/
theorem spawnWave_minimum_witness :
    (∃ s', spawnWave oW10 engineW10 0 0 true = some s' ∧
      ∃ newUnits, s'.units = engineW10.units ++ newUnits ∧
        1 ≤ newUnits.length) ∧
    spawnWave oW10 engineW10d 0 0 true = some engineW10d := by
  constructor
  · refine spawnWave_minimum.1 oW10 engineW10 0 0 true playerW rfl rfl ?_
    intro i
    show (0 : ℚ) < 1
    norm_num
  · exact spawnWave_minimum.2 oW10 engineW10d 0 0 true playerW10d rfl rfl

end Pinball
